import Mathlib

/-! Player-process protocol engine (`official/player.cpp`).

A shallow embedding of the wire codec (`readInt`, `readAct`, `sendToAI`), the bounded
stderr capture loop (`logging`), the handshake performed by the `Player` constructor and the
per-turn exchange `Player::plan`, followed by theorems about them.

Conventions of the embedding.
* A `std::string` and the byte content of a stream are lists of characters (`Str`).
* An input stream held through a `std::unique_ptr` is an `Option Str`: `none` is the null
  (moved-from) pointer, `some s` is an open stream whose unread content up to end-of-file is `s`.
* An output stream is the list of characters written to it so far.
* What the engine cannot compute by itself (the outcome of `future.wait_for`, the measured
  elapsed milliseconds, whether the child is running, the result of a shell hook) is an explicit
  input of the operation that observes it.
-/

namespace Samurai

/-- A `std::string`, as the sequence of its characters. -/
abbrev Str := List Char

/-- A string literal of the source, as a `Str`. -/
def txt (s : String) : Str := s.toList

/-! ## Library functions used by the source

`std::isspace`, `std::isdigit`, `strtol`, `std::stoi`, `operator>>` and the `%d` conversion
belong to the C and C++ libraries; they are written here after their standard behaviour, for a
64-bit `long` and a 32-bit `int`. -/

/-- The C-locale `isspace`: space, and the control characters `\t \n \v \f \r` (codes 9 to 13). -/
def isspace (c : Char) : Bool :=
  c.toNat == 32 || (9 ≤ c.toNat && c.toNat ≤ 13)

/-- The C-locale `isdigit`: the characters `0` to `9`. -/
def isdigit (c : Char) : Bool :=
  48 ≤ c.toNat && c.toNat ≤ 57

/-- Largest value of a 64-bit `long`. -/
def LONG_MAX : Int := 9223372036854775807

/-- Smallest value of a 64-bit `long`. -/
def LONG_MIN : Int := -9223372036854775808

/-- Largest value of a 32-bit `int`. -/
def INT_MAX : Int := 2147483647

/-- Smallest value of a 32-bit `int`. -/
def INT_MIN : Int := -2147483648

/-- The conversion loop of `strtol` in base 10: consume leading digits, accumulating their value
in `acc` and counting them in `n`. -/
def strtolDigits : Str → Nat → Nat → Nat × Nat
  | [], acc, n => (acc, n)
  | c :: cs, acc, n =>
    if isdigit c then strtolDigits cs (10 * acc + (c.toNat - 48)) (n + 1) else (acc, n)

/-- What `strtol(str, &endptr, 10)` reports: the returned value, whether any conversion was
performed (`endptr != str`), and whether `errno` was set to `ERANGE`. -/
structure StrtolResult where
  value : Int
  converted : Bool
  erange : Bool
  deriving DecidableEq, Repr

/-- The optional sign `strtol` accepts before the digits: whether it is a minus sign, and the
characters behind it. -/
def strtolSign : Str → Bool × Str
  | [] => (false, [])
  | c :: r => if c = '-' then (true, r) else if c = '+' then (false, r) else (false, c :: r)

/-- The C library `strtol` in base 10: skip leading white space, take an optional sign, convert
the digit run that follows; no digit means no conversion; a value outside the range of `long` is
clamped and flagged `ERANGE`. -/
def strtol (s : Str) : StrtolResult :=
  let s1 := s.dropWhile isspace
  let signed := strtolSign s1
  let digits := strtolDigits signed.2 0 0
  if digits.2 = 0 then ⟨0, false, false⟩
  else
    let v : Int := if signed.1 then -(digits.1 : Int) else (digits.1 : Int)
    if v > LONG_MAX then ⟨LONG_MAX, true, true⟩
    else if v < LONG_MIN then ⟨LONG_MIN, true, true⟩
    else ⟨v, true, false⟩

/-- The three ways a call of `std::stoi` ends: a value, or one of its two exceptions. -/
inductive StoiOutcome where
  | value (n : Int)
  | invalid_argument
  | out_of_range
  deriving DecidableEq, Repr

/-- The C++ library `std::stoi(str)`: calls `strtol` in base 10; throws `std::invalid_argument`
when no conversion was performed, `std::out_of_range` when `strtol` reported `ERANGE` or the
value does not fit an `int`, and returns the value otherwise. -/
def stoi (s : Str) : StoiOutcome :=
  let r := strtol s
  if !r.converted then StoiOutcome.invalid_argument
  else if r.erange || r.value < INT_MIN || r.value > INT_MAX then StoiOutcome.out_of_range
  else StoiOutcome.value r.value

/-- Formatted extraction `stream >> str` into an empty `std::string`: skip leading white space,
then take characters up to the next white space or the end of the stream. Returns the token
(empty when the stream ends first) and the unread rest of the stream. -/
def extract (s : Str) : Str × Str :=
  let s1 := s.dropWhile isspace
  (s1.takeWhile (fun c => !isspace c), s1.dropWhile (fun c => !isspace c))

/-- The conversion `%d` of `snprintf` and `operator<<` on an integer: decimal digits, with a
leading minus sign for a negative number. -/
def fmtInt : Int → Str
  | Int.ofNat n => Nat.toDigits 10 n
  | Int.negSucc n => '-' :: Nat.toDigits 10 (n + 1)

/-! ## Decoding (`readInt`, `readAct`) -/

/-- The `Message` pair: an optional parsed value and the diagnostic lines. -/
abbrev Message := Option Int × List Str

/-- The clipping step shared by both `catch` blocks of `readInt`: a token of length at least 100
is cut to its first 100 characters followed by `...`, and the tag `(clipped)` is set. Returns the
token to quote and the tag. -/
def clipToken (str : Str) : Str × Str :=
  if str.length ≥ 100 then (str.take 100 ++ txt "...", txt "(clipped)")
  else (str, [])

/-- The texts `e.what()` gives for the two exceptions of `std::stoi`; the C++ library in use
chooses them. -/
structure StoiWhat where
  invalid_argument : Str
  out_of_range : Str
  deriving DecidableEq, Repr

/-- Function `readInt` of the source. `what` holds the texts of `e.what()` for the exceptions
thrown by `std::stoi`. Returns the stream after the read together with the `Message`. -/
def readInt (what : StoiWhat) (inp : Option Str) : Option Str × Message :=
  match inp with
  | none => (none, (none, [txt "input stream is closed"]))
  | some s =>
    let tok := extract s
    let str := tok.1
    match stoi str with
    | StoiOutcome.invalid_argument =>
      let c := clipToken str
      (some tok.2, (none,
        [txt "input invalid argument from AI: \"" ++ c.1 ++ txt "\"" ++ c.2,
         txt "what : " ++ what.invalid_argument]))
    | StoiOutcome.out_of_range =>
      let c := clipToken str
      (some tok.2, (none,
        [txt "input out of int range value from AI: \"" ++ c.1 ++ txt "\"" ++ c.2,
         txt "what: " ++ what.out_of_range]))
    | StoiOutcome.value num => (some tok.2, (some num, []))

/-- The `Message4Act` pair: an optional acceleration pair and the diagnostic lines. -/
abbrev Message4Act := Option (Int × Int) × List Str

/-- Function `readAct` of the source: two calls of `readInt` on the same stream, diagnostics
concatenated, the pair present only when both reads gave a value. The stream is handed back
with the message (the value set on the promise). -/
def readAct (what : StoiWhat) (inp : Option Str) : Option Str × Message4Act :=
  let ax := readInt what inp
  let ay := readInt what ax.1
  let msg := ax.2.2 ++ ay.2.2
  match ax.2.1, ay.2.1 with
  | some x, some y => (ay.1, (some (x, y), msg))
  | _, _ => (ay.1, (none, msg))

/-! ## Encoding (`sendToAI`) -/

/-- Function `sendToAI` of the source, applied to the text `str` that `snprintf` produced from
the format and its arguments: the text is written to the child's standard input `toAI`, and
copied to `stdinLogStream` when that sink is configured. -/
def sendToAI (toAI : Str) (stdinLogStream : Option Str) (str : Str) : Str × Option Str :=
  (toAI ++ str,
    match stdinLogStream with
    | some log => some (log ++ str)
    | none => none)

/-! ## Bounded capture (`logging`) -/

/-- The `for` loop of `logging`: while the cap is absent (`-1`) or not yet reached, read one
character; write it to the sink and count it, or leave the loop when the input has ended.
Returns the final `size` and the content of the sink. -/
def loggingLoop (MAX_SIZE : Int) : Str → Int → Str → Int × Str
  | [], size, output =>
    if MAX_SIZE == -1 || size < MAX_SIZE then (size, output) else (size, output)
  | c :: input, size, output =>
    if MAX_SIZE == -1 || size < MAX_SIZE then loggingLoop MAX_SIZE input (size + 1) (output ++ [c])
    else (size, output)

/-- The notice `logging` writes after its loop when the cap was reached. -/
def limitNotice (MAX_SIZE : Int) : Str :=
  txt "\n" ++ txt "[system] stderr output have reached the limit(MAX_SIZE=" ++ fmtInt MAX_SIZE
    ++ txt " bytes)" ++ txt "\n"

/-- Function `logging` of the source, as the content of the sink when it returns: nothing is
done without a sink; otherwise the loop runs from `size = 0` and the notice follows when
`MAX_SIZE != -1 && size >= MAX_SIZE`. -/
def logging (input : Str) (output : Option Str) (MAX_SIZE : Int) : Option Str :=
  match output with
  | none => none
  | some out =>
    let r := loggingLoop MAX_SIZE input 0 out
    if MAX_SIZE != -1 && r.1 ≥ MAX_SIZE then some (r.2 ++ limitNotice MAX_SIZE) else some r.2

/-! ## Data model (`player.hpp`, `course.hpp`) -/

/-- Modelled from the spec: the enumeration `ResultCategory` of `player.hpp`, which is not among
the sources; the nine categories, in the order of the table `categoryName`. -/
inductive ResultCategory where
  | NORMAL | FINISHED | GONEOFF | OBSTACLED | COLLIDED | NOPLAY | TIMEDOUT | DIED | INVALID
  deriving DecidableEq, Repr

/-- Modelled from the spec: the lifecycle phase of a player, declared in `player.hpp`; the
source uses the two values `RACING` and `ALREADY_DISQUALIFIED`. -/
inductive PlayerStateCategory where
  | RACING | ALREADY_DISQUALIFIED
  deriving DecidableEq, Repr

/-- Modelled from the spec: the integer 2-vector behind `Position`, `Velocity` and
`Acceleration`, declared in `course.hpp`; the source reads its members `x` and `y`. -/
structure IntVec where
  x : Int
  y : Int
  deriving DecidableEq, Repr

/-- Position of a player. -/
abbrev Position := IntVec

/-- Velocity of a player. -/
abbrev Velocity := IntVec

/-- Acceleration chosen by a player. -/
abbrev Acceleration := IntVec

/-- Modelled from the spec: the structure `PlayerState` of `player.hpp`, with its members in
the order of the constructor call `PlayerState(RACING, Position, Velocity, thinkTime)`;
`timeLeft` is a 64-bit signed number of milliseconds (it is printed with `PRId64`). -/
structure PlayerState where
  state : PlayerStateCategory
  position : Position
  velocity : Velocity
  timeLeft : Int
  deriving DecidableEq, Repr

/-- Modelled from the spec: the members of `RaceCourse` (`course.hpp`) that the engine reads;
`squares y x` is the cell `squares[y][x]`. -/
structure RaceCourse where
  thinkTime : Int
  stepLimit : Int
  width : Int
  length : Int
  vision : Int
  squares : Nat → Nat → Int

/-- Modelled from the spec: the options bundle `Option` of `player.hpp`, named `Options` here:
the two optional sinks (each with the text written to it so far) and the two optional shell
hooks. -/
structure Options where
  stdinLogStream : Option Str
  stderrLogStream : Option Str
  pauseCommand : Option Str
  resumeCommand : Option Str
  deriving DecidableEq, Repr

/-- Modelled from the spec: the members of the class `Player` (`player.hpp`) that the
constructor and `plan` use. `toAI` is the text written to the child so far, `fromAI` the owned
input stream, and `cerr` the text these operations wrote on `std::cerr`. The process handle and
the capture thread are outside: the liveness of the child is observed through `Exchange`, and
the capture thread is the function `logging`. -/
structure Player where
  name : Str
  state : PlayerState
  option : Options
  toAI : Str
  fromAI : Option Str
  cerr : Str
  deriving DecidableEq, Repr

/-- Result of `future.wait_for`. -/
inductive FutureStatus where
  | ready | timeout
  deriving DecidableEq, Repr

/-- What a hook run through `boost::process::system` reports. -/
structure HookResult where
  result : Int
  ecValue : Int
  ecMessage : Str
  deriving DecidableEq, Repr

/-- What the engine observes from outside during one timed exchange. -/
structure Exchange where
  /-- The result of `future.wait_for(remain)`. -/
  status : FutureStatus
  /-- The elapsed milliseconds measured around the wait. -/
  timeUsed : Int
  /-- The value of `child->running()`. -/
  running : Bool
  /-- The value of `child->exit_code()`. -/
  exitCode : Int
  /-- The report of the resume hook. -/
  resume : HookResult
  /-- The report of the pause hook. -/
  pause : HookResult
  /-- The texts of `e.what()` for the exceptions of `std::stoi`. -/
  what : StoiWhat
  /-- The value of `__FILE__`. -/
  file : Str
  deriving DecidableEq, Repr

/-- Two's-complement wrap of a value into the range of `int64_t`. -/
def wrapInt64 (v : Int) : Int :=
  (v + 9223372036854775808) % 18446744073709551616 - 9223372036854775808

/-- Writes `text` on `std::cerr`. -/
def Player.toCerr (p : Player) (text : Str) : Player :=
  { p with cerr := p.cerr ++ text }

/-- Writes `text` on `option.stderrLogStream` when that sink is configured. -/
def Player.toStderrLog (p : Player) (text : Str) : Player :=
  match p.option.stderrLogStream with
  | some log => { p with option := { p.option with stderrLogStream := some (log ++ text) } }
  | none => p

/-- The call `sendToAI(toAI, option.stdinLogStream, ...)` on the streams of a player. -/
def Player.send (p : Player) (str : Str) : Player :=
  let r := sendToAI p.toAI p.option.stdinLogStream str
  { p with toAI := r.1, option := { p.option with stdinLogStream := r.2 } }

/-- The line written on `std::cerr` after a shell hook has run: file, line, hook kind, player
name and the report of the hook. -/
def hookLine (file : Str) (line : Int) (kind : Str) (name : Str) (h : HookResult) : Str :=
  file ++ txt ":" ++ fmtInt line ++ txt ": [" ++ kind ++ txt "] (" ++ name
    ++ txt ") return code: " ++ fmtInt h.result ++ txt ", error value: " ++ fmtInt h.ecValue
    ++ txt ", error message: " ++ h.ecMessage ++ txt "\n"

/-- Echo of the diagnostic lines of a read: each line goes to `std::cerr`, and to the stderr
sink behind the mark `[system] `. -/
def Player.echoLines (p : Player) (lines : List Str) : Player :=
  lines.foldl (fun q line =>
    (q.toCerr (line ++ txt "\n")).toStderrLog (txt "[system] " ++ line ++ txt "\n")) p

/-- The shell hook `cmd`, when configured, is run and its report written on `std::cerr`. -/
def Player.hook (p : Player) (cmd : Option Str) (line : Str) : Player :=
  match cmd with
  | some _ => p.toCerr line
  | none => p

/-- The member `fromAI` is set to `s` (`none` after `std::move(fromAI)` into the read thread). -/
def Player.withFromAI (p : Player) (s : Option Str) : Player :=
  { p with fromAI := s }

/-- The statement `state.timeLeft -= timeUsed` on the 64-bit budget. C++ leaves a difference
outside the range of `int64_t` undefined; it is wrapped here, and the theorems on the budget
assume that it does not occur. -/
def Player.spend (p : Player) (timeUsed : Int) : Player :=
  { p with state := { p.state with timeLeft := wrapInt64 (p.state.timeLeft - timeUsed) } }

/-- The statement `state.state = ALREADY_DISQUALIFIED`. -/
def Player.disqualify (p : Player) : Player :=
  { p with state := { p.state with state := PlayerStateCategory.ALREADY_DISQUALIFIED } }

/-- The lines both the handshake and `plan` write when the child is found dead. -/
def Player.reportDied (p : Player) (e : Exchange) : Player :=
  let p := p.toCerr (txt "player: \"" ++ p.name ++ txt "\" died." ++ txt "\n")
  let p := p.toCerr (txt "\texit code: " ++ fmtInt e.exitCode ++ txt "\n")
  let p := p.toStderrLog (txt "[system] your AI: \"" ++ p.name ++ txt "\" died." ++ txt "\n")
  let p := p.toStderrLog (txt "[system] \texit code: " ++ fmtInt e.exitCode ++ txt "\n")
  p

/-- The statements between the launch of the read thread and the test of the wait result, common
to the handshake and `plan`: the stream has moved into the thread, the elapsed time is taken off
the budget and logged, and the pause hook runs (`line` is its `__LINE__`). -/
def Player.waited (p : Player) (e : Exchange) (line : Int) : Player :=
  let p := p.withFromAI none
  let timeUsed := e.timeUsed
  let p := p.spend timeUsed
  let p := p.toStderrLog (txt "[system] spend time: " ++ fmtInt timeUsed ++ txt ", remain: "
    ++ fmtInt p.state.timeLeft ++ txt "\n")
  p.hook p.option.pauseCommand (hookLine e.file line (txt "pause") p.name e.pause)

/-! ## Handshake (constructor of `Player`) -/

/-- The handshake request: think time, step limit, width and length on one line, vision. -/
def Player.sendHandshake (p : Player) (course : RaceCourse) : Player :=
  let p := p.send (fmtInt course.thinkTime ++ txt "\n")
  let p := p.send (fmtInt course.stepLimit ++ txt "\n")
  let p := p.send (fmtInt course.width ++ txt " ")
  let p := p.send (fmtInt course.length ++ txt "\n")
  let p := p.send (fmtInt course.vision ++ txt "\n")
  p

/-- The constructor from the test of the wait result on; `inThread` is the stream the read
thread holds. -/
def Player.newReply (p : Player) (inThread : Option Str) (e : Exchange) : Player :=
  match e.status with
  | FutureStatus.timeout =>
    let p := p.disqualify
    let p := p.toCerr (txt "player: \"" ++ p.name
      ++ txt "\" did not respond in time during initiation" ++ txt "\n")
    let p := p.toStderrLog (txt "your AI: \"" ++ p.name
      ++ txt "\" did not respond in time during initiation" ++ txt "\n")
    p
  | FutureStatus.ready =>
    let ret := readInt e.what inThread
    let p := p.withFromAI ret.1
    let ans := ret.2.1
    let p := p.echoLines ret.2.2
    if ans = none ∨ ans ≠ some 0 then
      let p := p.toStderrLog (txt "[system] Failed...: hand shake" ++ txt "\n")
      if !e.running then
        let p := p.reportDied e
        p.disqualify
      else
        let p :=
          match ans with
          | some v =>
            let p := p.toCerr (txt "Response at initialization of player \"" ++ p.name
              ++ txt "\": (" ++ fmtInt v ++ txt ") is non-zero" ++ txt "\n")
            p.toStderrLog (txt "[system] Response at initialization of player \"" ++ p.name
              ++ txt "\": (" ++ fmtInt v ++ txt ") is non-zero" ++ txt "\n")
          | none => p
        p.disqualify
    else
      p.toStderrLog (txt "[system] Success!: hand shake" ++ txt "\n")

/-- The constructor `Player::Player` of the source. `childOut` is what the spawned child writes
on its standard output, and `e` what the engine observes during the timed read of the
acknowledgment. The capture thread that the constructor starts on the child's standard error is
the function `logging`; it runs beside the constructor and is not part of this function. -/
def Player.new (command : Str) (name : Str) (course : RaceCourse) (xpos : Int) (opt : Options)
    (childOut : Str) (e : Exchange) : Player :=
  let p : Player :=
    { name := name
      state := ⟨PlayerStateCategory.RACING, ⟨xpos, 0⟩, ⟨0, 0⟩, course.thinkTime⟩
      option := opt
      toAI := []
      fromAI := none
      cerr := [] }
  if command.length = 0 then
    p.disqualify
  else
    let p := p.withFromAI (some childOut)
    let p := p.toStderrLog (txt "[system] Try: hand shake" ++ txt "\n")
    let p := p.sendHandshake course
    (p.waited e 167).newReply p.fromAI e

/-! ## Turn exchange (`Player::plan`) -/

/-- The inner loop of the course dump for row `y`: the cells `x = 0 .. width - 1`, a single
space before every cell but the first, then the end of line. A cell is sent as
`y < visibility ? course.squares[y][x] : -1`. -/
def Player.sendRow (p : Player) (course : RaceCourse) (visibility : Int) (y : Nat) : Player :=
  let p := (List.range course.width.toNat).foldl (fun q x =>
    let q := if x ≠ 0 then q.send (txt " ") else q
    q.send (fmtInt (if (y : Int) < visibility then course.squares y x else -1))) p
  p.send (txt "\n")

/-- The request of one turn, in the order `plan` sends it. -/
def Player.sendTurn (p : Player) (stepNumber : Int) (op : Player) (course : RaceCourse)
    (visibility : Int) : Player :=
  let p := p.send (fmtInt stepNumber ++ txt "\n")
  let p := p.send (fmtInt p.state.timeLeft ++ txt "\n")
  let p := p.send (fmtInt p.state.position.x ++ txt " " ++ fmtInt p.state.position.y ++ txt " "
    ++ fmtInt p.state.velocity.x ++ txt " " ++ fmtInt p.state.velocity.y ++ txt "\n")
  let p :=
    if op.state.state = PlayerStateCategory.RACING then
      p.send (fmtInt op.state.position.x ++ txt " " ++ fmtInt op.state.position.y ++ txt " "
        ++ fmtInt op.state.velocity.x ++ txt " " ++ fmtInt op.state.velocity.y ++ txt "\n")
    else
      p.send (txt "0 " ++ fmtInt course.length ++ txt " 0 0\n")
  (List.range course.length.toNat).foldl (fun q y => q.sendRow course visibility y) p

/-- What `plan` leaves behind: the returned category, the player after the call, and the two
output parameters `accel` and `timeUsed`. -/
structure PlanResult where
  category : ResultCategory
  player : Player
  accel : Acceleration
  timeUsed : Int
  deriving DecidableEq, Repr

/-- The first part of `plan`, up to the launch of the read thread: the turn header on the
stderr sink, the request, and the resume hook. -/
def Player.planRequest (p : Player) (stepNumber : Int) (op : Player) (course : RaceCourse)
    (visibility : Int) (e : Exchange) : Player :=
  let p := p.toStderrLog (txt "[system] ================================" ++ txt "\n")
  let p := p.toStderrLog (txt "[system] turn: " ++ fmtInt stepNumber ++ txt "\n")
  let p := p.sendTurn stepNumber op course visibility
  p.hook p.option.resumeCommand (hookLine e.file 283 (txt "resume") p.name e.resume)

/-- The last part of `plan`, from the test of the wait result on; `inThread` is the stream the
read thread holds, `accel` the output parameter. -/
def Player.planReply (p : Player) (inThread : Option Str) (stepNumber : Int)
    (accel : Acceleration) (e : Exchange) : PlanResult :=
  let timeUsed := e.timeUsed
  match e.status with
  | FutureStatus.timeout =>
    let p := p.toCerr (txt "player: " ++ p.name ++ txt " did not respond in time at step "
      ++ fmtInt stepNumber ++ txt "\n")
    let p := p.toStderrLog (txt "[system] your AI: \"" ++ p.name
      ++ txt "\" did not respond in time at step " ++ fmtInt stepNumber ++ txt "\n")
    ⟨ResultCategory.TIMEDOUT, p, accel, timeUsed⟩
  | FutureStatus.ready =>
    let ret := readAct e.what inThread
    let p := p.withFromAI ret.1
    let p := p.echoLines ret.2.2
    match ret.2.1 with
    | some val =>
      if val.1 < -1 ∨ 1 < val.1 ∨ val.2 < -1 ∨ 1 < val.2 then
        let p := p.toCerr (txt "acceleration value must be from -1 to 1 each axis, but player: \""
          ++ p.name ++ txt "\" saied: (" ++ fmtInt val.1 ++ txt ", " ++ fmtInt val.2 ++ txt ")"
          ++ txt "\n")
        let p := p.toStderrLog
          (txt "[system] acceleration value must be from -1 to 1 each axis, but your AI: \""
          ++ p.name ++ txt "\" saied: (" ++ fmtInt val.1 ++ txt ", " ++ fmtInt val.2 ++ txt ")"
          ++ txt "\n")
        ⟨ResultCategory.INVALID, p, accel, timeUsed⟩
      else
        ⟨ResultCategory.NORMAL, p, ⟨val.1, val.2⟩, timeUsed⟩
    | none =>
      if !e.running then
        let p := p.reportDied e
        ⟨ResultCategory.DIED, p, accel, timeUsed⟩
      else
        ⟨ResultCategory.INVALID, p, accel, timeUsed⟩

/-- The member function `Player::plan` of the source. `accel` is the value the output parameter
of that name holds at the call; the output parameter `timeUsed` is assigned on every path. -/
def Player.plan (p : Player) (stepNumber : Int) (op : Player) (course : RaceCourse)
    (visibility : Int) (accel : Acceleration) (e : Exchange) : PlanResult :=
  let p := p.planRequest stepNumber op course visibility e
  (p.waited e 300).planReply p.fromAI stepNumber accel e

/-- The diagnostic `plan` writes on `std::cerr` for an acceleration out of range. -/
def outOfRangeLine (name : Str) (ax ay : Int) : Str :=
  txt "acceleration value must be from -1 to 1 each axis, but player: \"" ++ name
    ++ txt "\" saied: (" ++ fmtInt ax ++ txt ", " ++ fmtInt ay ++ txt ")" ++ txt "\n"

/-! ## The request of a turn, as the protocol words it -/

/-- A line `x y vx vy` for the position and velocity of a player. -/
def stateLine (s : PlayerState) : Str :=
  fmtInt s.position.x ++ txt " " ++ fmtInt s.position.y ++ txt " "
    ++ fmtInt s.velocity.x ++ txt " " ++ fmtInt s.velocity.y ++ txt "\n"

/-- The cell of row `y`, column `x` as the AI sees it: the course cell when the row is below the
visibility depth, `-1` otherwise. -/
def visibleCell (course : RaceCourse) (visibility : Int) (y x : Nat) : Int :=
  if (y : Int) < visibility then course.squares y x else -1

/-- One line of the course: `width` integers separated by single spaces. -/
def courseLine (course : RaceCourse) (visibility : Int) (y : Nat) : Str :=
  List.intercalate (txt " ")
      ((List.range course.width.toNat).map (fun x => fmtInt (visibleCell course visibility y x)))
    ++ txt "\n"

/-- The text of a turn request as the protocol describes it: step number, remaining budget, own
state, the state of the opponent or the sentinel line, then `length` course lines. -/
def turnText (stepNumber : Int) (self : PlayerState) (opponent : PlayerState)
    (course : RaceCourse) (visibility : Int) : Str :=
  fmtInt stepNumber ++ txt "\n"
    ++ (fmtInt self.timeLeft ++ txt "\n")
    ++ stateLine self
    ++ (if opponent.state = PlayerStateCategory.RACING then stateLine opponent
        else txt "0 " ++ fmtInt course.length ++ txt " 0 0" ++ txt "\n")
    ++ ((List.range course.length.toNat).map (fun y => courseLine course visibility y)).flatten

/-! ## Tokens, as the protocol words them -/

/-- The characters of a token behind its optional sign. -/
def unsignedPart : Str → Str
  | [] => []
  | c :: r => if c = '-' ∨ c = '+' then r else c :: r

/-- Whether a token starts with a minus sign. -/
def isNegative : Str → Bool
  | [] => false
  | c :: _ => decide (c = '-')

/-- The decimal digits a token starts with, behind its optional sign. -/
def leadingDigits (tok : Str) : Str :=
  (unsignedPart tok).takeWhile isdigit

/-- The number a string of decimal digits denotes in positional notation. -/
def decimalValue (ds : Str) : Nat :=
  Nat.ofDigits 10 (ds.reverse.map (fun c => c.toNat - 48))

/-- The integer denoted by the sign and the leading digits of a token. -/
def tokenValue (tok : Str) : Int :=
  if isNegative tok then -(decimalValue (leadingDigits tok) : Int)
  else (decimalValue (leadingDigits tok) : Int)

/-- A valid decimal integer token: an optional sign, then one digit or more, and nothing else. -/
def isIntegerToken (tok : Str) : Bool :=
  !(unsignedPart tok).isEmpty && (unsignedPart tok).all isdigit

/-- A non-numeric token: no digit follows its optional sign. -/
def isNonNumeric (tok : Str) : Bool :=
  (leadingDigits tok).isEmpty

/-- A token whose magnitude overflows `int`: it starts as a number, and that number is outside
the range of `int`. -/
def overflowsInt (tok : Str) : Bool :=
  !(leadingDigits tok).isEmpty && (decide (tokenValue tok < INT_MIN) || decide (INT_MAX < tokenValue tok))

/-- The opening of the first diagnostic of `readInt` for a malformed token, up to the opening
quote: one text for a non-numeric token, another for a token that overflows `int`. -/
def malformedHeader (tok : Str) : Str :=
  if isNonNumeric tok then txt "input invalid argument from AI: \""
  else txt "input out of int range value from AI: \""

/-! ## Concrete runs -/

/-- A course of width 3 and length 2 whose cell at row `y`, column `x` holds `y + x`. -/
def demoCourse : RaceCourse := ⟨1000, 100, 3, 2, 1, fun y x => ((y + x : Nat) : Int)⟩

/-- The texts of `e.what()` in libstdc++. -/
def demoWhat : StoiWhat := ⟨txt "stoi", txt "stoi"⟩

/-- An exchange answered in time after 3 ms by a running child. -/
def demoExchange : Exchange :=
  ⟨FutureStatus.ready, 3, true, 0, ⟨0, 0, []⟩, ⟨0, 0, []⟩, demoWhat, txt "player.cpp"⟩

/-- An exchange that ends in a timeout after 1000 ms. -/
def demoTimeout : Exchange :=
  ⟨FutureStatus.timeout, 1000, true, 0, ⟨0, 0, []⟩, ⟨0, 0, []⟩, demoWhat, txt "player.cpp"⟩

/-- A racing player with 1000 ms left whose child has `reply` waiting on its standard output. -/
def demoPlayer (reply : String) : Player :=
  { name := txt "A"
    state := ⟨PlayerStateCategory.RACING, ⟨5, 0⟩, ⟨0, 0⟩, 1000⟩
    option := ⟨none, none, none, none⟩
    toAI := []
    fromAI := some (txt reply)
    cerr := [] }

/-- The call of `plan` on `demoPlayer reply` at step 1 against a racing opponent. -/
def demoPlan (reply : String) (e : Exchange) : PlanResult :=
  (demoPlayer reply).plan 1 (demoPlayer "") demoCourse 1 ⟨7, 7⟩ e

/-- The handshake of a player launched by the command `ai` whose child writes `reply`. -/
def demoNew (reply : String) (e : Exchange) : Player :=
  Player.new (txt "ai") (txt "A") demoCourse 5 ⟨none, none, none, none⟩ (txt reply) e

/-! ## Frame lemmas: what the output helpers leave untouched -/

@[simp] theorem toCerr_state (p : Player) (t : Str) : (p.toCerr t).state = p.state := rfl
@[simp] theorem toCerr_fromAI (p : Player) (t : Str) : (p.toCerr t).fromAI = p.fromAI := rfl
@[simp] theorem toCerr_toAI (p : Player) (t : Str) : (p.toCerr t).toAI = p.toAI := rfl
@[simp] theorem toCerr_name (p : Player) (t : Str) : (p.toCerr t).name = p.name := rfl
@[simp] theorem toCerr_option (p : Player) (t : Str) : (p.toCerr t).option = p.option := rfl
@[simp] theorem toCerr_cerr (p : Player) (t : Str) : (p.toCerr t).cerr = p.cerr ++ t := rfl

@[simp] theorem toStderrLog_state (p : Player) (t : Str) : (p.toStderrLog t).state = p.state := by
  unfold Player.toStderrLog; split <;> rfl
@[simp] theorem toStderrLog_fromAI (p : Player) (t : Str) :
    (p.toStderrLog t).fromAI = p.fromAI := by
  unfold Player.toStderrLog; split <;> rfl
@[simp] theorem toStderrLog_toAI (p : Player) (t : Str) : (p.toStderrLog t).toAI = p.toAI := by
  unfold Player.toStderrLog; split <;> rfl
@[simp] theorem toStderrLog_name (p : Player) (t : Str) : (p.toStderrLog t).name = p.name := by
  unfold Player.toStderrLog; split <;> rfl
@[simp] theorem toStderrLog_cerr (p : Player) (t : Str) : (p.toStderrLog t).cerr = p.cerr := by
  unfold Player.toStderrLog; split <;> rfl
@[simp] theorem toStderrLog_stdinLog (p : Player) (t : Str) :
    (p.toStderrLog t).option.stdinLogStream = p.option.stdinLogStream := by
  unfold Player.toStderrLog; split <;> rfl
@[simp] theorem toStderrLog_pause (p : Player) (t : Str) :
    (p.toStderrLog t).option.pauseCommand = p.option.pauseCommand := by
  unfold Player.toStderrLog; split <;> rfl
@[simp] theorem toStderrLog_resume (p : Player) (t : Str) :
    (p.toStderrLog t).option.resumeCommand = p.option.resumeCommand := by
  unfold Player.toStderrLog; split <;> rfl
@[simp] theorem toStderrLog_stderrLog (p : Player) (t : Str) :
    (p.toStderrLog t).option.stderrLogStream = p.option.stderrLogStream.map (· ++ t) := by
  unfold Player.toStderrLog; split <;> simp_all

@[simp] theorem send_state (p : Player) (t : Str) : (p.send t).state = p.state := rfl
@[simp] theorem send_fromAI (p : Player) (t : Str) : (p.send t).fromAI = p.fromAI := rfl
@[simp] theorem send_name (p : Player) (t : Str) : (p.send t).name = p.name := rfl
@[simp] theorem send_cerr (p : Player) (t : Str) : (p.send t).cerr = p.cerr := rfl
@[simp] theorem send_toAI (p : Player) (t : Str) : (p.send t).toAI = p.toAI ++ t := rfl
@[simp] theorem send_stderrLog (p : Player) (t : Str) :
    (p.send t).option.stderrLogStream = p.option.stderrLogStream := rfl
@[simp] theorem send_pause (p : Player) (t : Str) :
    (p.send t).option.pauseCommand = p.option.pauseCommand := rfl
@[simp] theorem send_resume (p : Player) (t : Str) :
    (p.send t).option.resumeCommand = p.option.resumeCommand := rfl
@[simp] theorem send_stdinLog (p : Player) (t : Str) :
    (p.send t).option.stdinLogStream = p.option.stdinLogStream.map (· ++ t) := by
  unfold Player.send sendToAI; cases h : p.option.stdinLogStream <;> simp

/-- A property of players that every `send` preserves is preserved by a fold of sends. -/
theorem foldl_preserves {α β : Type} (g : Player → β) (f : Player → α → Player)
    (hf : ∀ q a, g (f q a) = g q) (l : List α) (p : Player) : g (l.foldl f p) = g p := by
  induction l generalizing p with
  | nil => rfl
  | cons a l ih => simp [List.foldl, ih, hf]

@[simp] theorem echoLines_state (p : Player) (l : List Str) : (p.echoLines l).state = p.state :=
  foldl_preserves (·.state) _ (by intro q a; simp) l p
@[simp] theorem echoLines_fromAI (p : Player) (l : List Str) :
    (p.echoLines l).fromAI = p.fromAI :=
  foldl_preserves (·.fromAI) _ (by intro q a; simp) l p
@[simp] theorem echoLines_toAI (p : Player) (l : List Str) : (p.echoLines l).toAI = p.toAI :=
  foldl_preserves (·.toAI) _ (by intro q a; simp) l p
@[simp] theorem echoLines_name (p : Player) (l : List Str) : (p.echoLines l).name = p.name :=
  foldl_preserves (·.name) _ (by intro q a; simp) l p
@[simp] theorem echoLines_stdinLog (p : Player) (l : List Str) :
    (p.echoLines l).option.stdinLogStream = p.option.stdinLogStream :=
  foldl_preserves (·.option.stdinLogStream) _ (by intro q a; simp) l p
@[simp] theorem echoLines_nil (p : Player) : p.echoLines [] = p := rfl

@[simp] theorem sendRow_state (p : Player) (c : RaceCourse) (v : Int) (y : Nat) :
    (p.sendRow c v y).state = p.state := by
  unfold Player.sendRow
  simp only [send_state]
  exact foldl_preserves (·.state) _ (by intro q a; split <;> simp) _ p
@[simp] theorem sendRow_fromAI (p : Player) (c : RaceCourse) (v : Int) (y : Nat) :
    (p.sendRow c v y).fromAI = p.fromAI := by
  unfold Player.sendRow
  simp only [send_fromAI]
  exact foldl_preserves (·.fromAI) _ (by intro q a; split <;> simp) _ p
@[simp] theorem sendRow_name (p : Player) (c : RaceCourse) (v : Int) (y : Nat) :
    (p.sendRow c v y).name = p.name := by
  unfold Player.sendRow
  simp only [send_name]
  exact foldl_preserves (·.name) _ (by intro q a; split <;> simp) _ p
@[simp] theorem sendRow_cerr (p : Player) (c : RaceCourse) (v : Int) (y : Nat) :
    (p.sendRow c v y).cerr = p.cerr := by
  unfold Player.sendRow
  simp only [send_cerr]
  exact foldl_preserves (·.cerr) _ (by intro q a; split <;> simp) _ p
@[simp] theorem sendRow_stderrLog (p : Player) (c : RaceCourse) (v : Int) (y : Nat) :
    (p.sendRow c v y).option.stderrLogStream = p.option.stderrLogStream := by
  unfold Player.sendRow
  simp only [send_stderrLog]
  exact foldl_preserves (·.option.stderrLogStream) _ (by intro q a; split <;> simp) _ p
@[simp] theorem sendRow_pause (p : Player) (c : RaceCourse) (v : Int) (y : Nat) :
    (p.sendRow c v y).option.pauseCommand = p.option.pauseCommand := by
  unfold Player.sendRow
  simp only [send_pause]
  exact foldl_preserves (·.option.pauseCommand) _ (by intro q a; split <;> simp) _ p
@[simp] theorem sendRow_resume (p : Player) (c : RaceCourse) (v : Int) (y : Nat) :
    (p.sendRow c v y).option.resumeCommand = p.option.resumeCommand := by
  unfold Player.sendRow
  simp only [send_resume]
  exact foldl_preserves (·.option.resumeCommand) _ (by intro q a; split <;> simp) _ p

@[simp] theorem sendTurn_state (p : Player) (n : Int) (op : Player) (c : RaceCourse) (v : Int) :
    (p.sendTurn n op c v).state = p.state := by
  unfold Player.sendTurn
  rw [foldl_preserves (·.state) _ (by intro q a; simp)]
  split <;> simp
@[simp] theorem sendTurn_fromAI (p : Player) (n : Int) (op : Player) (c : RaceCourse) (v : Int) :
    (p.sendTurn n op c v).fromAI = p.fromAI := by
  unfold Player.sendTurn
  rw [foldl_preserves (·.fromAI) _ (by intro q a; simp)]
  split <;> simp
@[simp] theorem sendTurn_name (p : Player) (n : Int) (op : Player) (c : RaceCourse) (v : Int) :
    (p.sendTurn n op c v).name = p.name := by
  unfold Player.sendTurn
  rw [foldl_preserves (·.name) _ (by intro q a; simp)]
  split <;> simp
@[simp] theorem sendTurn_cerr (p : Player) (n : Int) (op : Player) (c : RaceCourse) (v : Int) :
    (p.sendTurn n op c v).cerr = p.cerr := by
  unfold Player.sendTurn
  rw [foldl_preserves (·.cerr) _ (by intro q a; simp)]
  split <;> simp
@[simp] theorem sendTurn_stderrLog (p : Player) (n : Int) (op : Player) (c : RaceCourse)
    (v : Int) : (p.sendTurn n op c v).option.stderrLogStream = p.option.stderrLogStream := by
  unfold Player.sendTurn
  rw [foldl_preserves (·.option.stderrLogStream) _ (by intro q a; simp)]
  split <;> simp
@[simp] theorem sendTurn_pause (p : Player) (n : Int) (op : Player) (c : RaceCourse)
    (v : Int) : (p.sendTurn n op c v).option.pauseCommand = p.option.pauseCommand := by
  unfold Player.sendTurn
  rw [foldl_preserves (·.option.pauseCommand) _ (by intro q a; simp)]
  split <;> simp
@[simp] theorem sendTurn_resume (p : Player) (n : Int) (op : Player) (c : RaceCourse)
    (v : Int) : (p.sendTurn n op c v).option.resumeCommand = p.option.resumeCommand := by
  unfold Player.sendTurn
  rw [foldl_preserves (·.option.resumeCommand) _ (by intro q a; simp)]
  split <;> simp

@[simp] theorem hook_state (p : Player) (c : Option Str) (t : Str) : (p.hook c t).state = p.state := by
  unfold Player.hook; split <;> rfl
@[simp] theorem hook_fromAI (p : Player) (c : Option Str) (t : Str) :
    (p.hook c t).fromAI = p.fromAI := by
  unfold Player.hook; split <;> rfl
@[simp] theorem hook_toAI (p : Player) (c : Option Str) (t : Str) : (p.hook c t).toAI = p.toAI := by
  unfold Player.hook; split <;> rfl
@[simp] theorem hook_name (p : Player) (c : Option Str) (t : Str) : (p.hook c t).name = p.name := by
  unfold Player.hook; split <;> rfl
@[simp] theorem hook_option (p : Player) (c : Option Str) (t : Str) :
    (p.hook c t).option = p.option := by
  unfold Player.hook; split <;> rfl

@[simp] theorem withFromAI_state (p : Player) (s : Option Str) : (p.withFromAI s).state = p.state :=
  rfl
@[simp] theorem withFromAI_fromAI (p : Player) (s : Option Str) : (p.withFromAI s).fromAI = s := rfl
@[simp] theorem withFromAI_toAI (p : Player) (s : Option Str) : (p.withFromAI s).toAI = p.toAI := rfl
@[simp] theorem withFromAI_name (p : Player) (s : Option Str) : (p.withFromAI s).name = p.name := rfl
@[simp] theorem withFromAI_cerr (p : Player) (s : Option Str) : (p.withFromAI s).cerr = p.cerr := rfl
@[simp] theorem withFromAI_option (p : Player) (s : Option Str) :
    (p.withFromAI s).option = p.option := rfl
theorem withFromAI_eq (p q : Player) (s : Option Str) (h : p.withFromAI none = q.withFromAI none) :
    p.withFromAI s = q.withFromAI s := by
  cases p; cases q; simp_all [Player.withFromAI]

@[simp] theorem spend_timeLeft (p : Player) (t : Int) :
    (p.spend t).state.timeLeft = wrapInt64 (p.state.timeLeft - t) := rfl
@[simp] theorem spend_phase (p : Player) (t : Int) : (p.spend t).state.state = p.state.state := rfl
@[simp] theorem spend_fromAI (p : Player) (t : Int) : (p.spend t).fromAI = p.fromAI := rfl
@[simp] theorem spend_toAI (p : Player) (t : Int) : (p.spend t).toAI = p.toAI := rfl
@[simp] theorem spend_name (p : Player) (t : Int) : (p.spend t).name = p.name := rfl
@[simp] theorem spend_cerr (p : Player) (t : Int) : (p.spend t).cerr = p.cerr := rfl
@[simp] theorem spend_option (p : Player) (t : Int) : (p.spend t).option = p.option := rfl

@[simp] theorem disqualify_phase (p : Player) :
    p.disqualify.state.state = PlayerStateCategory.ALREADY_DISQUALIFIED := rfl
@[simp] theorem disqualify_timeLeft (p : Player) :
    p.disqualify.state.timeLeft = p.state.timeLeft := rfl
@[simp] theorem disqualify_name (p : Player) : p.disqualify.name = p.name := rfl

@[simp] theorem reportDied_state (p : Player) (e : Exchange) : (p.reportDied e).state = p.state := by
  simp [Player.reportDied]
@[simp] theorem reportDied_fromAI (p : Player) (e : Exchange) :
    (p.reportDied e).fromAI = p.fromAI := by
  simp [Player.reportDied]
@[simp] theorem reportDied_toAI (p : Player) (e : Exchange) : (p.reportDied e).toAI = p.toAI := by
  simp [Player.reportDied]

@[simp] theorem waited_timeLeft (p : Player) (e : Exchange) (line : Int) :
    (p.waited e line).state.timeLeft = wrapInt64 (p.state.timeLeft - e.timeUsed) := by
  simp [Player.waited]
@[simp] theorem waited_phase (p : Player) (e : Exchange) (line : Int) :
    (p.waited e line).state.state = p.state.state := by
  simp [Player.waited]
@[simp] theorem waited_fromAI (p : Player) (e : Exchange) (line : Int) :
    (p.waited e line).fromAI = none := by
  simp [Player.waited]
@[simp] theorem waited_toAI (p : Player) (e : Exchange) (line : Int) :
    (p.waited e line).toAI = p.toAI := by
  simp [Player.waited]
@[simp] theorem waited_name (p : Player) (e : Exchange) (line : Int) :
    (p.waited e line).name = p.name := by
  simp [Player.waited]
@[simp] theorem waited_stdinLog (p : Player) (e : Exchange) (line : Int) :
    (p.waited e line).option.stdinLogStream = p.option.stdinLogStream := by
  simp [Player.waited]

@[simp] theorem planRequest_state (p : Player) (n : Int) (op : Player) (c : RaceCourse) (v : Int)
    (e : Exchange) : (p.planRequest n op c v e).state = p.state := by
  simp [Player.planRequest]
@[simp] theorem planRequest_fromAI (p : Player) (n : Int) (op : Player) (c : RaceCourse) (v : Int)
    (e : Exchange) : (p.planRequest n op c v e).fromAI = p.fromAI := by
  simp [Player.planRequest]
@[simp] theorem planRequest_name (p : Player) (n : Int) (op : Player) (c : RaceCourse) (v : Int)
    (e : Exchange) : (p.planRequest n op c v e).name = p.name := by
  simp [Player.planRequest]

@[simp] theorem sendHandshake_state (p : Player) (c : RaceCourse) :
    (p.sendHandshake c).state = p.state := rfl
@[simp] theorem sendHandshake_fromAI (p : Player) (c : RaceCourse) :
    (p.sendHandshake c).fromAI = p.fromAI := rfl

/-! ## The turn exchange and the handshake, path by path -/

theorem wrapInt64_of_inRange (v : Int) (h1 : -9223372036854775808 ≤ v)
    (h2 : v ≤ 9223372036854775807) : wrapInt64 v = v := by
  unfold wrapInt64
  omega

theorem planReply_timeLeft (p : Player) (s : Option Str) (n : Int) (a : Acceleration)
    (e : Exchange) : (p.planReply s n a e).player.state.timeLeft = p.state.timeLeft := by
  cases hs : e.status <;> simp only [Player.planReply, hs]
  · cases hr : (readAct e.what s).2.1 <;> simp only []
    · cases hrun : e.running <;> simp
    · split <;> simp
  · simp

theorem planReply_timeUsed (p : Player) (s : Option Str) (n : Int) (a : Acceleration)
    (e : Exchange) : (p.planReply s n a e).timeUsed = e.timeUsed := by
  cases hs : e.status <;> simp only [Player.planReply, hs]
  cases hr : (readAct e.what s).2.1 <;> simp only []
  · cases hrun : e.running <;> simp
  · split <;> simp

theorem newReply_timeLeft (p : Player) (s : Option Str) (e : Exchange) :
    (p.newReply s e).state.timeLeft = p.state.timeLeft := by
  cases hs : e.status <;> simp only [Player.newReply, hs]
  · split
    · cases hrun : e.running <;> simp only [Bool.not_false, Bool.not_true, if_true]
      · simp
      · cases hr : (readInt e.what s).2.1 <;> simp
    · simp
  · simp

/-! ## The request does not depend on the input stream -/

theorem toStderrLog_withFromAI (p : Player) (s : Option Str) (t : Str) :
    (p.withFromAI s).toStderrLog t = (p.toStderrLog t).withFromAI s := by
  unfold Player.toStderrLog Player.withFromAI
  cases h : p.option.stderrLogStream <;> simp [h]

theorem toCerr_withFromAI (p : Player) (s : Option Str) (t : Str) :
    (p.withFromAI s).toCerr t = (p.toCerr t).withFromAI s := rfl

theorem send_withFromAI (p : Player) (s : Option Str) (t : Str) :
    (p.withFromAI s).send t = (p.send t).withFromAI s := rfl

theorem hook_withFromAI (p : Player) (s : Option Str) (c : Option Str) (t : Str) :
    (p.withFromAI s).hook c t = (p.hook c t).withFromAI s := by
  unfold Player.hook; split <;> rfl

theorem foldl_withFromAI {α : Type} (f : Player → α → Player) (s : Option Str)
    (hf : ∀ q a, f (q.withFromAI s) a = (f q a).withFromAI s) (l : List α) (p : Player) :
    l.foldl f (p.withFromAI s) = (l.foldl f p).withFromAI s := by
  induction l generalizing p with
  | nil => rfl
  | cons a l ih => simp [List.foldl, hf, ih]

theorem sendRow_withFromAI (p : Player) (s : Option Str) (c : RaceCourse) (v : Int) (y : Nat) :
    (p.withFromAI s).sendRow c v y = (p.sendRow c v y).withFromAI s := by
  unfold Player.sendRow
  rw [foldl_withFromAI _ s (by intro q a; split <;> simp [send_withFromAI])]
  rfl

theorem sendTurn_withFromAI (p : Player) (s : Option Str) (n : Int) (op : Player)
    (c : RaceCourse) (v : Int) :
    (p.withFromAI s).sendTurn n op c v = (p.sendTurn n op c v).withFromAI s := by
  unfold Player.sendTurn
  simp only [send_withFromAI, withFromAI_state]
  split <;>
    rw [foldl_withFromAI _ s (by intro q a; exact sendRow_withFromAI q s c v a)]

theorem planRequest_withFromAI (p : Player) (s : Option Str) (n : Int) (op : Player)
    (c : RaceCourse) (v : Int) (e : Exchange) :
    (p.withFromAI s).planRequest n op c v e = (p.planRequest n op c v e).withFromAI s := by
  unfold Player.planRequest
  simp only [toStderrLog_withFromAI, sendTurn_withFromAI, hook_withFromAI, withFromAI_option,
    withFromAI_name]

theorem withFromAI_withFromAI (p : Player) (s t : Option Str) :
    (p.withFromAI s).withFromAI t = p.withFromAI t := rfl

theorem waited_withFromAI (p : Player) (s : Option Str) (e : Exchange) (line : Int) :
    (p.withFromAI s).waited e line = p.waited e line := by
  unfold Player.waited
  simp only [withFromAI_withFromAI]

theorem sendHandshake_withFromAI (p : Player) (s : Option Str) (c : RaceCourse) :
    (p.withFromAI s).sendHandshake c = (p.sendHandshake c).withFromAI s := rfl

/-- On a timeout the last part of `plan` does not look at the stream of the read thread. -/
theorem planReply_timeout (p : Player) (s : Option Str) (n : Int) (a : Acceleration)
    (e : Exchange) (h : e.status = FutureStatus.timeout) :
    p.planReply s n a e = p.planReply none n a e
      ∧ (p.planReply s n a e).category = ResultCategory.TIMEDOUT
      ∧ (p.planReply s n a e).accel = a := by
  simp [Player.planReply, h]

/-- On a timeout the last part of the constructor does not look at the stream of the read
thread. -/
theorem newReply_timeout (p : Player) (s : Option Str) (e : Exchange)
    (h : e.status = FutureStatus.timeout) :
    p.newReply s e = p.newReply none e
      ∧ (p.newReply s e).state.state = PlayerStateCategory.ALREADY_DISQUALIFIED := by
  simp [Player.newReply, h]

/-! ## Theorems on the turn exchange and the handshake -/

/-- C7: after the handshake of a launched player and after every call of `plan`, the remaining
time budget is the budget before the exchange minus the measured elapsed milliseconds, as long
as that difference is a 64-bit value; `plan` reports the same measurement through `timeUsed`;
hence a non-negative measurement never increases the budget. This holds for every observation
`e`, so on the Normal, Invalid, Died and TimedOut paths alike. -/
theorem budget_after_exchange (p op : Player) (stepNumber visibility : Int) (course : RaceCourse)
    (accel : Acceleration) (e : Exchange)
    (command name : Str) (course0 : RaceCourse) (xpos : Int) (opt : Options) (childOut : Str)
    (e0 : Exchange)
    (hcmd : command.length ≠ 0)
    (hplan : -9223372036854775808 ≤ p.state.timeLeft - e.timeUsed
      ∧ p.state.timeLeft - e.timeUsed ≤ 9223372036854775807)
    (hnew : -9223372036854775808 ≤ course0.thinkTime - e0.timeUsed
      ∧ course0.thinkTime - e0.timeUsed ≤ 9223372036854775807) :
    (p.plan stepNumber op course visibility accel e).player.state.timeLeft
        = p.state.timeLeft - e.timeUsed
      ∧ (p.plan stepNumber op course visibility accel e).timeUsed = e.timeUsed
      ∧ (Player.new command name course0 xpos opt childOut e0).state.timeLeft
        = course0.thinkTime - e0.timeUsed
      ∧ (0 ≤ e.timeUsed →
          (p.plan stepNumber op course visibility accel e).player.state.timeLeft
            ≤ p.state.timeLeft)
      ∧ (0 ≤ e0.timeUsed →
          (Player.new command name course0 xpos opt childOut e0).state.timeLeft
            ≤ course0.thinkTime) := by
  have h1 : (p.plan stepNumber op course visibility accel e).player.state.timeLeft
      = p.state.timeLeft - e.timeUsed := by
    unfold Player.plan
    simp only [planReply_timeLeft, waited_timeLeft, planRequest_state]
    exact wrapInt64_of_inRange _ hplan.1 hplan.2
  have h2 : (Player.new command name course0 xpos opt childOut e0).state.timeLeft
      = course0.thinkTime - e0.timeUsed := by
    unfold Player.new
    simp only [hcmd, if_false, newReply_timeLeft, waited_timeLeft, sendHandshake_state,
      toStderrLog_state, withFromAI_state]
    exact wrapInt64_of_inRange _ hnew.1 hnew.2
  refine ⟨h1, ?_, h2, ?_, ?_⟩
  · unfold Player.plan
    exact planReply_timeUsed _ _ _ _ _
  · intro h; rw [h1]; omega
  · intro h; rw [h2]; omega

/-- C6: when the wait ends in a timeout, `plan` returns TIMEDOUT with the output acceleration
untouched and the constructor leaves the player ALREADY_DISQUALIFIED, and the whole result is
the same whatever the input stream holds: the reply is never read. -/
theorem timeout_outcome (p op : Player) (stepNumber visibility : Int) (course : RaceCourse)
    (accel : Acceleration) (e : Exchange)
    (command name : Str) (course0 : RaceCourse) (xpos : Int) (opt : Options)
    (h : e.status = FutureStatus.timeout) (s1 s2 : Option Str) (out1 out2 : Str) :
    ((p.withFromAI s1).plan stepNumber op course visibility accel e).category
        = ResultCategory.TIMEDOUT
      ∧ ((p.withFromAI s1).plan stepNumber op course visibility accel e).accel = accel
      ∧ (p.withFromAI s1).plan stepNumber op course visibility accel e
        = (p.withFromAI s2).plan stepNumber op course visibility accel e
      ∧ (Player.new command name course0 xpos opt out1 e).state.state
        = PlayerStateCategory.ALREADY_DISQUALIFIED
      ∧ Player.new command name course0 xpos opt out1 e
        = Player.new command name course0 xpos opt out2 e := by
  refine ⟨?_, ?_, ?_, ?_, ?_⟩
  · unfold Player.plan
    exact (planReply_timeout _ _ _ _ _ h).2.1
  · unfold Player.plan
    exact (planReply_timeout _ _ _ _ _ h).2.2
  · unfold Player.plan
    simp only [planRequest_withFromAI, waited_withFromAI]
    rw [(planReply_timeout _ _ _ _ _ h).1]
    exact ((planReply_timeout _ _ _ _ _ h).1).symm
  · unfold Player.new
    split
    · rfl
    · exact (newReply_timeout _ _ _ h).2
  · unfold Player.new
    split
    · rfl
    · simp only [toStderrLog_withFromAI, sendHandshake_withFromAI, waited_withFromAI]
      rw [(newReply_timeout _ _ _ h).1]
      exact ((newReply_timeout _ _ _ h).1).symm

/-- C1: when the reply arrives in time and `readAct` parses it to the pair `(ax, ay)`, `plan`
returns NORMAL with the output acceleration set to `(ax, ay)` if both components lie in
`[-1, 1]`; otherwise it returns INVALID, leaves the output acceleration as it was, and the last
text it writes on `std::cerr` is the diagnostic naming the pair `(ax, ay)`. -/
theorem plan_parsed_pair (p op : Player) (stepNumber visibility : Int) (course : RaceCourse)
    (accel : Acceleration) (e : Exchange) (ax ay : Int) (rest : Option Str) (msgs : List Str)
    (hs : e.status = FutureStatus.ready)
    (hr : readAct e.what p.fromAI = (rest, (some (ax, ay), msgs))) :
    ((-1 ≤ ax ∧ ax ≤ 1 ∧ -1 ≤ ay ∧ ay ≤ 1) →
        (p.plan stepNumber op course visibility accel e).category = ResultCategory.NORMAL
        ∧ (p.plan stepNumber op course visibility accel e).accel = ⟨ax, ay⟩)
      ∧ (¬ (-1 ≤ ax ∧ ax ≤ 1 ∧ -1 ≤ ay ∧ ay ≤ 1) →
        (p.plan stepNumber op course visibility accel e).category = ResultCategory.INVALID
        ∧ (p.plan stepNumber op course visibility accel e).accel = accel
        ∧ ∃ pre, (p.plan stepNumber op course visibility accel e).player.cerr
            = pre ++ outOfRangeLine p.name ax ay) := by
  unfold Player.plan
  simp only [Player.planReply, hs, planRequest_fromAI, hr]
  constructor
  · intro hin
    have hno : ¬ (ax < -1 ∨ 1 < ax ∨ ay < -1 ∨ 1 < ay) := by omega
    simp [hno]
  · intro hout
    have hyes : ax < -1 ∨ 1 < ax ∨ ay < -1 ∨ 1 < ay := by omega
    simp only [hyes, if_true, toStderrLog_cerr, toCerr_cerr, echoLines_name, withFromAI_name,
      waited_name, planRequest_name, outOfRangeLine, true_and]
    exact ⟨_, rfl⟩

/-- C5: when the reply arrives in time but at least one of the two reads of `readAct` yields no
value, `plan` returns INVALID if the child is running and DIED if it is not, so never NORMAL,
and leaves the output acceleration as it was. -/
theorem plan_parse_failure (p op : Player) (stepNumber visibility : Int) (course : RaceCourse)
    (accel : Acceleration) (e : Exchange)
    (hs : e.status = FutureStatus.ready)
    (hfail : (readInt e.what p.fromAI).2.1 = none
      ∨ (readInt e.what (readInt e.what p.fromAI).1).2.1 = none) :
    (p.plan stepNumber op course visibility accel e).category
        = (if e.running then ResultCategory.INVALID else ResultCategory.DIED)
      ∧ (p.plan stepNumber op course visibility accel e).category ≠ ResultCategory.NORMAL
      ∧ (p.plan stepNumber op course visibility accel e).accel = accel := by
  have hnone : (readAct e.what p.fromAI).2.1 = none := by
    unfold readAct
    rcases hfail with h | h
    · simp only [h]
    · simp only [h]
      cases (readInt e.what p.fromAI).2.1 <;> rfl
  unfold Player.plan
  simp only [Player.planReply, hs, planRequest_fromAI, hnone]
  cases hrun : e.running <;> simp

/-- C2: for a player built with a non-empty launch command whose acknowledgment arrives in
time, the lifecycle phase after construction is RACING when the acknowledgment parses to `0`,
and ALREADY_DISQUALIFIED when it parses to any other integer, when the read yields no value,
and in particular when the stream ends without yielding a token (it holds white space only). -/
theorem handshake_phase (command name : Str) (course : RaceCourse) (xpos : Int) (opt : Options)
    (childOut : Str) (e : Exchange)
    (hcmd : command.length ≠ 0) (hs : e.status = FutureStatus.ready) :
    ((readInt e.what (some childOut)).2.1 = some 0 →
        (Player.new command name course xpos opt childOut e).state.state
          = PlayerStateCategory.RACING)
      ∧ (∀ v : Int, v ≠ 0 → (readInt e.what (some childOut)).2.1 = some v →
        (Player.new command name course xpos opt childOut e).state.state
          = PlayerStateCategory.ALREADY_DISQUALIFIED)
      ∧ ((readInt e.what (some childOut)).2.1 = none →
        (Player.new command name course xpos opt childOut e).state.state
          = PlayerStateCategory.ALREADY_DISQUALIFIED)
      ∧ ((∀ c ∈ childOut, isspace c = true) →
        (Player.new command name course xpos opt childOut e).state.state
          = PlayerStateCategory.ALREADY_DISQUALIFIED) := by
  have key : ∀ ans, (readInt e.what (some childOut)).2.1 = ans →
      (Player.new command name course xpos opt childOut e).state.state
        = (if ans = some 0 then PlayerStateCategory.RACING
            else PlayerStateCategory.ALREADY_DISQUALIFIED) := by
    intro ans hans
    unfold Player.new
    simp only [hcmd, if_false, Player.newReply, hs, sendHandshake_fromAI, toStderrLog_fromAI,
      withFromAI_fromAI, hans]
    by_cases h0 : ans = some 0
    · subst h0
      simp
    · have hor : ans = none ∨ ans ≠ some 0 := Or.inr h0
      simp only [hor, if_true, h0, if_false]
      cases hrun : e.running <;> simp only [Bool.not_false, Bool.not_true, if_true]
      · simp
      · cases ans <;> simp
  refine ⟨fun h => ?_, fun v hv h => ?_, fun h => ?_, fun h => ?_⟩
  · rw [key _ h]; simp
  · rw [key _ h]; simp [hv]
  · rw [key _ h]; simp
  · have hd : childOut.dropWhile isspace = [] := by
      rw [List.dropWhile_eq_nil_iff]
      exact h
    have hnone : (readInt e.what (some childOut)).2.1 = none := by
      simp [readInt, extract, hd, stoi, strtol, strtolDigits]
    rw [key _ hnone]; simp

theorem send_send (p : Player) (a b : Str) : (p.send a).send b = p.send (a ++ b) := by
  unfold Player.send sendToAI
  cases h : p.option.stdinLogStream <;> simp [h]

theorem send_nil (p : Player) : p.send [] = p := by
  unfold Player.send sendToAI
  cases p with
  | mk name state option toAI fromAI cerr =>
    cases option with
    | mk a b c d => cases a <;> simp

theorem intercalate_concat (sep : Str) (l : List Str) (a : Str) (h : l ≠ []) :
    List.intercalate sep (l ++ [a]) = List.intercalate sep l ++ sep ++ a := by
  induction l with
  | nil => exact absurd rfl h
  | cons b l ih =>
    cases l with
    | nil => simp [List.intercalate, List.intersperse]
    | cons c l =>
      have := ih (by simp)
      simp only [List.intercalate, List.cons_append, List.intersperse, List.flatten_cons,
        List.append_assoc] at this ⊢
      exact congrArg (fun t => b ++ (sep ++ t)) this

/-- The inner loop of the course dump over the first `n` columns sends the first `n` cells
separated by single spaces. -/
theorem sendCells_eq (p : Player) (course : RaceCourse) (visibility : Int) (y n : Nat) :
    (List.range n).foldl (fun q x =>
        let q := if x ≠ 0 then q.send (txt " ") else q
        q.send (fmtInt (if (y : Int) < visibility then course.squares y x else -1))) p
      = p.send (List.intercalate (txt " ")
          ((List.range n).map (fun x => fmtInt (visibleCell course visibility y x)))) := by
  induction n with
  | zero => simp [List.intercalate, send_nil]
  | succ n ih =>
    rw [List.range_succ, List.foldl_append, ih]
    cases n with
    | zero => simp [List.intercalate, send_nil, visibleCell]
    | succ m =>
      have hne : (List.map (fun x => fmtInt (visibleCell course visibility y x))
          (List.range (m + 1))) ≠ [] := by simp
      simp only [List.map_append, List.map_cons, List.map_nil]
      rw [intercalate_concat _ _ _ hne]
      simp only [List.foldl_cons, List.foldl_nil, ne_eq, Nat.add_one_ne_zero, not_false_eq_true,
        if_true, send_send, List.append_assoc]
      rfl

theorem sendRow_eq (p : Player) (course : RaceCourse) (visibility : Int) (y : Nat) :
    p.sendRow course visibility y = p.send (courseLine course visibility y) := by
  unfold Player.sendRow courseLine
  simp only [sendCells_eq, send_send]

theorem sendRows_eq (p : Player) (course : RaceCourse) (visibility : Int) (n : Nat) :
    (List.range n).foldl (fun q y => q.sendRow course visibility y) p
      = p.send ((List.range n).map (fun y => courseLine course visibility y)).flatten := by
  induction n with
  | zero => simp [send_nil]
  | succ n ih =>
    rw [List.range_succ, List.foldl_append, ih]
    simp [sendRow_eq, send_send]

theorem sendTurn_eq (p : Player) (stepNumber : Int) (op : Player) (course : RaceCourse)
    (visibility : Int) :
    p.sendTurn stepNumber op course visibility
      = p.send (turnText stepNumber p.state op.state course visibility) := by
  unfold Player.sendTurn turnText stateLine
  simp only [sendRows_eq, send_state]
  split <;> simp only [send_send, List.append_assoc]
  rfl

/-- C8: whatever the step number, the player, the opponent, the course and the visibility depth,
`plan` appends to the text sent to the AI exactly `turnText`: a line with the step number, a
line with the remaining budget, the line `x y vx vy` of the player, the line `x y vx vy` of the
opponent when its phase is RACING and the sentinel line `0 length 0 0` otherwise, then `length`
lines of `width` integers separated by single spaces, the integer for row `y` and column `x`
being `squares[y][x]` when `y` is below the visibility depth and `-1` otherwise. The stdin sink,
when configured, receives the same text. -/
theorem plan_request_text (p op : Player) (stepNumber visibility : Int) (course : RaceCourse)
    (accel : Acceleration) (e : Exchange) :
    (p.plan stepNumber op course visibility accel e).player.toAI
        = p.toAI ++ turnText stepNumber p.state op.state course visibility
      ∧ (p.plan stepNumber op course visibility accel e).player.option.stdinLogStream
        = p.option.stdinLogStream.map
            (fun log => log ++ turnText stepNumber p.state op.state course visibility) := by
  have hreq : ∀ q : Player, ∀ s : Option Str,
      (q.planReply s stepNumber accel e).player.toAI = q.toAI
        ∧ (q.planReply s stepNumber accel e).player.option.stdinLogStream
          = q.option.stdinLogStream := by
    intro q s
    cases hs : e.status <;> simp only [Player.planReply, hs]
    · cases hr : (readAct e.what s).2.1 <;> simp only []
      · cases hrun : e.running <;> simp [Player.reportDied]
      · split <;> simp
    · simp
  unfold Player.plan
  rw [(hreq _ _).1, (hreq _ _).2]
  simp [Player.planRequest, sendTurn_eq]

/-! ## Theorem on the bounded capture -/

theorem loggingLoop_eq (n : Int) (input : Str) :
    ∀ (size : Int) (out : Str), 0 ≤ size → size ≤ n →
      loggingLoop n input size out
        = (size + min input.length (n - size).toNat, out ++ input.take (n - size).toNat) := by
  induction input with
  | nil => intro size out _ _; simp [loggingLoop]
  | cons c input ih =>
    intro size out h0 hle
    have hn1 : (n == -1) = false := by
      simp only [beq_eq_false_iff_ne, ne_eq]; omega
    by_cases hlt : size < n
    · have hstep : (n - size).toNat = (n - (size + 1)).toNat + 1 := by omega
      simp only [loggingLoop, hn1, Bool.false_or, decide_eq_true_eq, hlt, if_true]
      rw [ih (size + 1) (out ++ [c]) (by omega) (by omega), hstep]
      simp only [List.length_cons, List.take_succ_cons, List.append_assoc, List.singleton_append,
        Prod.mk.injEq, and_true]
      have : min (input.length + 1) ((n - (size + 1)).toNat + 1)
          = min input.length (n - (size + 1)).toNat + 1 := by omega
      rw [this]; push_cast; omega
    · have hz : (n - size).toNat = 0 := by omega
      simp [loggingLoop, hn1, hlt, hz]

/-- C9: with a sink and a cap `n ≥ 0`, `logging` appends to the sink the first `min(length, n)`
bytes of the input in order, so never more than `n` of them; when the cap is reached
(`n ≤ length`) it appends after them a newline and the notice line naming `n`, once; when the
input ends before the cap it appends nothing more. -/
theorem logging_capped (input sink : Str) (n : Int) (hn : 0 ≤ n) :
    logging input (some sink) n
        = some (sink ++ input.take n.toNat
            ++ (if n.toNat ≤ input.length then
                  txt "\n" ++ txt "[system] stderr output have reached the limit(MAX_SIZE="
                    ++ fmtInt n ++ txt " bytes)" ++ txt "\n"
                else []))
      ∧ (input.take n.toNat).length = min input.length n.toNat
      ∧ ((input.take n.toNat).length : Int) ≤ n := by
  refine ⟨?_, ?_, ?_⟩
  · have hn1 : (n != -1) = true := by
      simp only [bne_iff_ne, ne_eq]; omega
    simp only [logging, loggingLoop_eq n input 0 sink (le_refl 0) hn, hn1, Bool.true_and,
      sub_zero, zero_add, ge_iff_le, decide_eq_true_eq, limitNotice]
    by_cases hcap : n.toNat ≤ input.length
    · have : n ≤ ((min input.length n.toNat : Nat) : Int) := by omega
      simp [hcap, this]
    · have : ¬ n ≤ ((min input.length n.toNat : Nat) : Int) := by omega
      have h2 : ¬ n ≤ (input.length : Int) := by omega
      simp [hcap, this, h2]
  · simp [List.length_take, Nat.min_comm]
  · simp only [List.length_take]; omega

/-! ## Lemmas on the library functions -/

theorem isdigit_iff (c : Char) : isdigit c = true ↔ 48 ≤ c.toNat ∧ c.toNat ≤ 57 := by
  simp [isdigit]

theorem isspace_iff (c : Char) :
    isspace c = true ↔ c.toNat = 32 ∨ (9 ≤ c.toNat ∧ c.toNat ≤ 13) := by
  simp [isspace]

theorem not_isspace_of_isdigit (c : Char) (h : isdigit c = true) : isspace c = false := by
  rw [isdigit_iff] at h
  cases hs : isspace c with
  | false => rfl
  | true => rw [isspace_iff] at hs; omega

theorem decimalValue_nil : decimalValue [] = 0 := by
  simp [decimalValue]

theorem decimalValue_cons (c : Char) (l : Str) :
    decimalValue (c :: l) = (c.toNat - 48) * 10 ^ l.length + decimalValue l := by
  simp only [decimalValue, List.reverse_cons, List.map_append, List.map_cons, List.map_nil,
    Nat.ofDigits_append, Nat.ofDigits_singleton, List.length_map, List.length_reverse]
  ring

/-- The conversion loop of `strtol` computes the positional value of the leading digits. -/
theorem strtolDigits_eq (s : Str) : ∀ acc n : Nat,
    strtolDigits s acc n
      = (10 ^ (s.takeWhile isdigit).length * acc + decimalValue (s.takeWhile isdigit),
          n + (s.takeWhile isdigit).length) := by
  induction s with
  | nil => intro acc n; simp [strtolDigits, decimalValue_nil]
  | cons c cs ih =>
    intro acc n
    cases hd : isdigit c with
    | false => simp [strtolDigits, hd, decimalValue_nil]
    | true =>
      simp only [strtolDigits, hd, if_true, ih, List.takeWhile_cons_of_pos, List.length_cons,
        decimalValue_cons, Prod.mk.injEq]
      constructor
      · ring
      · omega

theorem strtolSign_eq (tok : Str) : strtolSign tok = (isNegative tok, unsignedPart tok) := by
  cases tok with
  | nil => rfl
  | cons c r =>
    by_cases h1 : c = '-'
    · simp [h1, strtolSign, isNegative, unsignedPart]
    · by_cases h2 : c = '+'
      · simp [h2, strtolSign, isNegative, unsignedPart]
      · simp [h1, h2, strtolSign, isNegative, unsignedPart]

/-- What `std::stoi` does on a token that does not start with white space, in terms of the
token: no leading digit gives `invalid_argument`, a value outside `int` gives `out_of_range`,
and the value of the sign and leading digits is returned otherwise. -/
theorem stoi_eq (tok : Str) (hhead : ∀ c, tok.head? = some c → isspace c = false) :
    stoi tok
      = (if isNonNumeric tok then StoiOutcome.invalid_argument
          else if overflowsInt tok then StoiOutcome.out_of_range
          else StoiOutcome.value (tokenValue tok)) := by
  have hdrop : tok.dropWhile isspace = tok := by
    cases tok with
    | nil => rfl
    | cons c r =>
      have := hhead c rfl
      simp [List.dropWhile_cons, this]
  have hsign : strtolSign tok = (isNegative tok, unsignedPart tok) := strtolSign_eq tok
  unfold stoi strtol
  simp only [hdrop, hsign, strtolDigits_eq, Nat.mul_zero, Nat.zero_add]
  by_cases hnn : (leadingDigits tok) = []
  · have h0 : (List.takeWhile isdigit (unsignedPart tok)).length = 0 := by
      simp [leadingDigits] at hnn
      simp [hnn]
    simp [isNonNumeric, hnn, h0]
  · have h0 : ¬ (List.takeWhile isdigit (unsignedPart tok)).length = 0 := by
      intro h
      exact hnn (List.length_eq_zero.mp h)
    have hne : isNonNumeric tok = false := by
      simp [isNonNumeric, hnn]
    simp only [h0, if_false, hne, Bool.false_eq_true, overflowsInt, tokenValue, leadingDigits,
      LONG_MAX, LONG_MIN, INT_MAX, INT_MIN]
    generalize decimalValue (List.takeWhile isdigit (unsignedPart tok)) = m
    have hemp : (List.takeWhile isdigit (unsignedPart tok)).isEmpty = false := by
      simpa [leadingDigits] using hnn
    rw [hemp]
    cases isNegative tok
    · by_cases hb1 : (m : Int) > 9223372036854775807
      · have : (2147483647 : Int) < m := by omega
        simp [hb1, this]
      · by_cases hb2 : (2147483647 : Int) < m
        · have h3 : ¬ (m : Int) < -9223372036854775808 := by omega
          simp [hb1, hb2, h3]
        · have h3 : ¬ (m : Int) < -9223372036854775808 := by omega
          have h4 : ¬ (m : Int) < -2147483648 := by omega
          simp [hb1, hb2, h3, h4]
    · by_cases hb1 : -(m : Int) < -9223372036854775808
      · have h2 : ¬ -(m : Int) > 9223372036854775807 := by omega
        have : -(m : Int) < -2147483648 := by omega
        simp [hb1, h2, this]
      · have h2 : ¬ -(m : Int) > 9223372036854775807 := by omega
        have h5 : ¬ (2147483647 : Int) < -(m : Int) := by omega
        by_cases hb2 : -(m : Int) < -2147483648
        · simp [hb1, hb2, h2]
        · simp [hb1, hb2, h2, h5]

theorem dropWhile_isspace_append (ws s : Str) (hws : ∀ c ∈ ws, isspace c = true)
    (hs : ∀ c, s.head? = some c → isspace c = false) :
    (ws ++ s).dropWhile isspace = s := by
  induction ws with
  | nil =>
    cases s with
    | nil => rfl
    | cons c r => simp [List.dropWhile_cons, hs c rfl]
  | cons w ws ih =>
    have hw : isspace w = true := hws w (by simp)
    simp only [List.cons_append, List.dropWhile_cons, hw, if_true]
    exact ih (fun c hc => hws c (by simp [hc]))

theorem takeWhile_token (tok rest : Str) (htok : ∀ c ∈ tok, isspace c = false)
    (hrest : ∀ c, rest.head? = some c → isspace c = true) :
    (tok ++ rest).takeWhile (fun c => !isspace c) = tok
      ∧ (tok ++ rest).dropWhile (fun c => !isspace c) = rest := by
  induction tok with
  | nil =>
    cases rest with
    | nil => simp
    | cons c r => simp [List.takeWhile_cons, List.dropWhile_cons, hrest c rfl]
  | cons t tok ih =>
    have ht : isspace t = false := htok t (by simp)
    have := ih (fun c hc => htok c (by simp [hc]))
    simp [List.takeWhile_cons, List.dropWhile_cons, ht, this]

/-- Extraction yields the next token of the stream: behind leading white space, the characters
up to the next white space or the end of the stream. -/
theorem extract_token (ws tok rest : Str) (hws : ∀ c ∈ ws, isspace c = true)
    (htok : ∀ c ∈ tok, isspace c = false) (hne : tok ≠ [])
    (hrest : ∀ c, rest.head? = some c → isspace c = true) :
    extract (ws ++ tok ++ rest) = (tok, rest) := by
  have hhead : ∀ c, (tok ++ rest).head? = some c → isspace c = false := by
    intro c hc
    cases tok with
    | nil => exact absurd rfl hne
    | cons t tok =>
      simp only [List.cons_append, List.head?_cons, Option.some.injEq] at hc
      exact hc ▸ htok t (by simp)
  unfold extract
  simp only [List.append_assoc, dropWhile_isspace_append ws (tok ++ rest) hws hhead,
    takeWhile_token tok rest htok hrest]

/-- An extracted token never starts with white space. -/
theorem extract_head (s : Str) : ∀ c, (extract s).1.head? = some c → isspace c = false := by
  intro c hc
  unfold extract at hc
  simp only [List.head?_takeWhile] at hc
  cases h : (List.dropWhile isspace s).head? with
  | none => simp [h] at hc
  | some d =>
    simp only [h, Option.filter] at hc
    split at hc
    · simp only [Option.some.injEq] at hc
      subst hc
      simp_all
    · simp at hc

theorem integerToken_chars (tok : Str) (h : isIntegerToken tok = true) :
    (∀ c ∈ tok, isspace c = false) ∧ tok ≠ [] ∧ leadingDigits tok = unsignedPart tok
      ∧ isNonNumeric tok = false := by
  simp only [isIntegerToken, Bool.and_eq_true, Bool.not_eq_true', List.isEmpty_eq_false,
    List.all_eq_true] at h
  obtain ⟨hne, hall⟩ := h
  have hlead : leadingDigits tok = unsignedPart tok := by
    unfold leadingDigits
    rw [List.takeWhile_eq_self_iff]
    exact hall
  refine ⟨?_, ?_, hlead, ?_⟩
  · cases tok with
    | nil => simp
    | cons c r =>
      intro d hd
      by_cases hsign : c = '-' ∨ c = '+'
      · simp only [unsignedPart, hsign, if_true] at hall
        rcases List.mem_cons.mp hd with rfl | hr
        · rcases hsign with rfl | rfl <;> decide
        · exact not_isspace_of_isdigit d (hall d hr)
      · simp only [unsignedPart, hsign, if_false] at hall
        exact not_isspace_of_isdigit d (hall d hd)
  · intro h0
    subst h0
    simp [unsignedPart] at hne
  · simp only [isNonNumeric, hlead]
    cases hu : unsignedPart tok with
    | nil => exact absurd hu hne
    | cons a b => rfl

/-! ## Theorems on decoding -/

/-- C3: for a valid decimal integer token (an optional sign and one digit or more) whose value
fits an `int`, `readInt` on an open stream whose next white-space-delimited token is that token
returns that very integer, with an empty list of diagnostics, and leaves the stream just behind
the token. All the characters behind the sign are digits, so `tokenValue` is the value of the
whole token. -/
theorem readInt_integer_token (what : StoiWhat) (ws tok rest : Str)
    (hws : ∀ c ∈ ws, isspace c = true)
    (htok : isIntegerToken tok = true)
    (hrange : INT_MIN ≤ tokenValue tok ∧ tokenValue tok ≤ INT_MAX)
    (hrest : ∀ c, rest.head? = some c → isspace c = true) :
    readInt what (some (ws ++ tok ++ rest)) = (some rest, (some (tokenValue tok), []))
      ∧ leadingDigits tok = unsignedPart tok := by
  obtain ⟨hchars, hne, hlead, hnn⟩ := integerToken_chars tok htok
  refine ⟨?_, hlead⟩
  have hhead : ∀ c, tok.head? = some c → isspace c = false := by
    intro c hc
    cases tok with
    | nil => simp at hc
    | cons t r =>
      simp only [List.head?_cons, Option.some.injEq] at hc
      exact hc ▸ hchars t (by simp)
  have hov : overflowsInt tok = false := by
    unfold overflowsInt
    have h1 : ¬ tokenValue tok < INT_MIN := by omega
    have h2 : ¬ INT_MAX < tokenValue tok := by omega
    simp [h1, h2]
  have hstoi : stoi tok = StoiOutcome.value (tokenValue tok) := by
    rw [stoi_eq tok hhead]
    simp [hnn, hov]
  simp only [readInt, extract_token ws tok rest hws hchars hne hrest, hstoi]

/-- The `catch (const std::invalid_argument&)` path of `readInt`. -/
theorem readInt_invalid (what : StoiWhat) (t : Str) (h : isNonNumeric (extract t).1 = true) :
    readInt what (some t) = (some (extract t).2, (none,
      [txt "input invalid argument from AI: \"" ++ (clipToken (extract t).1).1 ++ txt "\""
          ++ (clipToken (extract t).1).2,
        txt "what : " ++ what.invalid_argument])) := by
  simp only [readInt, stoi_eq _ (extract_head t), h, if_true]

/-- The `catch (const std::out_of_range&)` path of `readInt`. -/
theorem readInt_overflow (what : StoiWhat) (t : Str) (h : overflowsInt (extract t).1 = true) :
    readInt what (some t) = (some (extract t).2, (none,
      [txt "input out of int range value from AI: \"" ++ (clipToken (extract t).1).1
          ++ txt "\"" ++ (clipToken (extract t).1).2,
        txt "what: " ++ what.out_of_range])) := by
  have hnn : isNonNumeric (extract t).1 = false := by
    simp only [overflowsInt, Bool.and_eq_true, Bool.not_eq_true'] at h
    simpa [isNonNumeric] using h.1
  simp only [readInt, stoi_eq _ (extract_head t), h, hnn, if_true, Bool.false_eq_true,
    if_false]

/-- A token shorter than 100 characters is quoted as it is. -/
theorem clipToken_short (str : Str) (h : str.length < 100) : clipToken str = (str, []) := by
  unfold clipToken
  have : ¬ str.length ≥ 100 := by omega
  simp [this]

/-- A token of 100 characters or more is cut to its first 100 characters, followed by `...`, and
tagged `(clipped)`. -/
theorem clipToken_long (str : Str) (h : 100 ≤ str.length) :
    clipToken str = (str.take 100 ++ txt "...", txt "(clipped)") := by
  unfold clipToken
  simp [h]

/-- C4, as the code has it: for a token that is non-numeric (no digit behind its optional sign)
or whose leading number overflows `int`, `readInt` returns no value together with exactly two
diagnostic strings, the message quoting the (clipped) token and the line giving the reason of
the failure, and it returns normally; so `readAct` on two such tokens returns no pair and
exactly four diagnostics. -/
theorem readInt_malformed_token (what : StoiWhat) (s : Str) :
    (isNonNumeric (extract s).1 = true →
        readInt what (some s) = (some (extract s).2, (none,
          [txt "input invalid argument from AI: \"" ++ (clipToken (extract s).1).1 ++ txt "\""
              ++ (clipToken (extract s).1).2,
            txt "what : " ++ what.invalid_argument])))
      ∧ (overflowsInt (extract s).1 = true →
        readInt what (some s) = (some (extract s).2, (none,
          [txt "input out of int range value from AI: \"" ++ (clipToken (extract s).1).1
              ++ txt "\"" ++ (clipToken (extract s).1).2,
            txt "what: " ++ what.out_of_range])))
      ∧ ((isNonNumeric (extract s).1 = true ∨ overflowsInt (extract s).1 = true) →
          (isNonNumeric (extract (extract s).2).1 = true
            ∨ overflowsInt (extract (extract s).2).1 = true) →
          (readAct what (some s)).2.1 = none ∧ (readAct what (some s)).2.2.length = 4) := by
  have hinv := readInt_invalid what
  have hovf := readInt_overflow what
  have hbad : ∀ t : Str,
      (isNonNumeric (extract t).1 = true ∨ overflowsInt (extract t).1 = true) →
      (readInt what (some t)).1 = some (extract t).2 ∧ (readInt what (some t)).2.1 = none
        ∧ (readInt what (some t)).2.2.length = 2 := by
    intro t h
    rcases h with h | h
    · rw [hinv t h]; simp
    · rw [hovf t h]; simp
  refine ⟨hinv s, hovf s, ?_⟩
  intro h1 h2
  obtain ⟨a1, a2, a3⟩ := hbad s h1
  obtain ⟨b1, b2, b3⟩ := hbad (extract s).2 h2
  unfold readAct
  simp only [a1, a2, b2, List.length_append, a3, b3]
  exact ⟨trivial, trivial⟩

/-- A stream of 100 letters `a` holds that one token. -/
theorem extract_hundred_letters :
    extract (List.replicate 100 'a') = (List.replicate 100 'a', []) := by
  have := extract_token [] (List.replicate 100 'a') [] (by simp)
    (by intro c hc; rw [List.mem_replicate] at hc; rw [hc.2]; decide) (by simp) (by simp)
  simpa using this

/-- The token of 100 letters `a` is non-numeric. -/
theorem isNonNumeric_hundred_letters :
    isNonNumeric (extract (List.replicate 100 'a')).1 = true := by
  rw [extract_hundred_letters]
  simp only [isNonNumeric, leadingDigits]
  rw [show (100 : Nat) = 99 + 1 from rfl, List.replicate_succ]
  have h1 : unsignedPart ('a' :: List.replicate 99 'a') = 'a' :: List.replicate 99 'a' := by
    simp [unsignedPart]
  have h2 : isdigit 'a' = false := by decide
  rw [h1, List.takeWhile_cons, h2]
  rfl

/-- What `readInt` returns on the token of 100 letters `a`: the whole token, then `...`, then
the closing quote and the tag `(clipped)`. -/
theorem readInt_hundred_letters (what : StoiWhat) :
    readInt what (some (List.replicate 100 'a')) = (some [], (none,
      [txt "input invalid argument from AI: \"" ++ (List.replicate 100 'a' ++ txt "...")
          ++ txt "\"" ++ txt "(clipped)",
        txt "what : " ++ what.invalid_argument])) := by
  rw [readInt_invalid what _ isNonNumeric_hundred_letters, extract_hundred_letters,
    clipToken_long _ (by simp)]
  simp

/-- The first diagnostic of `readInt` for a malformed token, in terms of the token. -/
theorem readInt_first_line (what : StoiWhat) (s : Str)
    (h : isNonNumeric (extract s).1 = true ∨ overflowsInt (extract s).1 = true) :
    (readInt what (some s)).2.2.head?
      = some (malformedHeader (extract s).1 ++ (clipToken (extract s).1).1 ++ txt "\""
          ++ (clipToken (extract s).1).2) := by
  rcases h with h | h
  · rw [readInt_invalid what s h]
    simp [malformedHeader, h]
  · have hnn : isNonNumeric (extract s).1 = false := by
      simp only [overflowsInt, Bool.and_eq_true, Bool.not_eq_true'] at h
      simpa [isNonNumeric] using h.1
    rw [readInt_overflow what s h]
    simp [malformedHeader, hnn]

/-- C10, as the code has it: in the diagnostic `readInt` produces for a malformed token (one
that is non-numeric or overflows `int`), the token is quoted as it is, with no ellipsis and no
tag, when it is shorter than 100 characters; when it has 100 characters or more, it is replaced
by its first 100 characters followed by the ellipsis `...`, and the tag `(clipped)` follows the
closing quote. -/
theorem readInt_quote_clipping (what : StoiWhat) (s : Str)
    (h : isNonNumeric (extract s).1 = true ∨ overflowsInt (extract s).1 = true) :
    ((extract s).1.length < 100 →
        (readInt what (some s)).2.2.head?
          = some (malformedHeader (extract s).1 ++ (extract s).1 ++ txt "\""))
      ∧ (100 ≤ (extract s).1.length →
        (readInt what (some s)).2.2.head?
          = some (malformedHeader (extract s).1 ++ ((extract s).1.take 100 ++ txt "...")
              ++ txt "\"" ++ txt "(clipped)")) := by
  constructor
  · intro hlen
    rw [readInt_first_line what s h, clipToken_short _ hlen]
    simp
  · intro hlen
    rw [readInt_first_line what s h, clipToken_long _ hlen]

/-! ## Printing and reading agree -/

theorem digitChar_spec : ∀ k : Nat, k < 10 →
    isdigit (Nat.digitChar k) = true ∧ (Nat.digitChar k).toNat - 48 = k := by
  decide

theorem decimalValue_append (l1 l2 : Str) :
    decimalValue (l1 ++ l2) = decimalValue l1 * 10 ^ l2.length + decimalValue l2 := by
  induction l1 with
  | nil => simp [decimalValue_nil]
  | cons c l ih =>
    simp only [List.cons_append, decimalValue_cons, ih, List.length_append]
    ring

theorem toDigitsCore_spec (fuel : Nat) : ∀ (n : Nat) (ds : Str), n < fuel →
    ∃ l : Str, Nat.toDigitsCore 10 fuel n ds = l ++ ds ∧ (∀ c ∈ l, isdigit c = true)
      ∧ l ≠ [] ∧ decimalValue l = n := by
  induction fuel with
  | zero => intro n ds h; omega
  | succ fuel ih =>
    intro n ds h
    have hd := digitChar_spec (n % 10) (Nat.mod_lt _ (by decide))
    by_cases h0 : n / 10 = 0
    · refine ⟨[Nat.digitChar (n % 10)], ?_, ?_, by simp, ?_⟩
      · simp [Nat.toDigitsCore, h0]
      · intro c hc
        rw [List.mem_singleton] at hc
        rw [hc]; exact hd.1
      · rw [decimalValue_cons, decimalValue_nil, hd.2]
        simp only [List.length_nil, pow_zero, mul_one, add_zero]
        omega
    · obtain ⟨l, hl, hall, _, hval⟩ := ih (n / 10) (Nat.digitChar (n % 10) :: ds) (by omega)
      refine ⟨l ++ [Nat.digitChar (n % 10)], ?_, ?_, by simp, ?_⟩
      · simp [Nat.toDigitsCore, h0, hl]
      · intro c hc
        rcases List.mem_append.mp hc with hc | hc
        · exact hall c hc
        · rw [List.mem_singleton] at hc
          rw [hc]; exact hd.1
      · rw [decimalValue_append, hval, decimalValue_cons, decimalValue_nil, hd.2]
        simp only [List.length_singleton, pow_one, List.length_nil, pow_zero, mul_one, add_zero]
        omega

theorem toDigits_spec (n : Nat) :
    (∀ c ∈ Nat.toDigits 10 n, isdigit c = true) ∧ Nat.toDigits 10 n ≠ []
      ∧ decimalValue (Nat.toDigits 10 n) = n := by
  obtain ⟨l, hl, hall, hne, hval⟩ := toDigitsCore_spec (n + 1) n [] (by omega)
  unfold Nat.toDigits
  rw [hl, List.append_nil]
  exact ⟨hall, hne, hval⟩

theorem unsignedPart_of_digits (l : Str) (h : ∀ c ∈ l, isdigit c = true) :
    unsignedPart l = l ∧ isNegative l = false := by
  cases l with
  | nil => exact ⟨rfl, rfl⟩
  | cons c r =>
    have hc := (isdigit_iff c).mp (h c (by simp))
    have h1 : c ≠ '-' := by
      intro h1; rw [h1] at hc; revert hc; decide
    have h2 : c ≠ '+' := by
      intro h2; rw [h2] at hc; revert hc; decide
    simp [unsignedPart, isNegative, h1, h2]

/-- The decimal text `fmtInt` prints for an integer is a valid integer token whose value is that
integer. -/
theorem fmtInt_token (v : Int) : isIntegerToken (fmtInt v) = true ∧ tokenValue (fmtInt v) = v := by
  cases v with
  | ofNat n =>
    obtain ⟨hall, hne, hval⟩ := toDigits_spec n
    obtain ⟨hu, hneg⟩ := unsignedPart_of_digits _ hall
    have hlead : leadingDigits (Nat.toDigits 10 n) = Nat.toDigits 10 n := by
      unfold leadingDigits
      rw [hu, List.takeWhile_eq_self_iff]
      exact hall
    constructor
    · simp only [fmtInt, isIntegerToken, hu, Bool.and_eq_true, Bool.not_eq_true',
        List.isEmpty_eq_false, List.all_eq_true]
      exact ⟨hne, hall⟩
    · simp only [fmtInt, tokenValue, hneg, hlead, hval, Bool.false_eq_true, if_false]
      rfl
  | negSucc n =>
    obtain ⟨hall, hne, hval⟩ := toDigits_spec (n + 1)
    have hu : unsignedPart ('-' :: Nat.toDigits 10 (n + 1)) = Nat.toDigits 10 (n + 1) := by
      simp [unsignedPart]
    have hlead : leadingDigits ('-' :: Nat.toDigits 10 (n + 1)) = Nat.toDigits 10 (n + 1) := by
      unfold leadingDigits
      rw [hu, List.takeWhile_eq_self_iff]
      exact hall
    constructor
    · simp only [fmtInt, isIntegerToken, hu, Bool.and_eq_true, Bool.not_eq_true',
        List.isEmpty_eq_false, List.all_eq_true]
      exact ⟨hne, hall⟩
    · simp only [fmtInt, tokenValue, isNegative, hlead, hval, decide_True, if_true]
      rw [Int.negSucc_eq]
      push_cast
      ring

/-- Witness of C1 on the six replies the protocol names: `-1 -1`, `0 0` and `1 1` give NORMAL
with that acceleration; `2 0`, `-2 1` and `0 5` give INVALID. -/
theorem plan_parsed_pair_witness :
    ((demoPlan "-1 -1\n" demoExchange).category = ResultCategory.NORMAL
        ∧ (demoPlan "-1 -1\n" demoExchange).accel = ⟨-1, -1⟩)
      ∧ ((demoPlan "0 0\n" demoExchange).category = ResultCategory.NORMAL
        ∧ (demoPlan "0 0\n" demoExchange).accel = ⟨0, 0⟩)
      ∧ ((demoPlan "1 1\n" demoExchange).category = ResultCategory.NORMAL
        ∧ (demoPlan "1 1\n" demoExchange).accel = ⟨1, 1⟩)
      ∧ (demoPlan "2 0\n" demoExchange).category = ResultCategory.INVALID
      ∧ (demoPlan "-2 1\n" demoExchange).category = ResultCategory.INVALID
      ∧ (demoPlan "0 5\n" demoExchange).category = ResultCategory.INVALID :=
  ⟨(plan_parsed_pair (demoPlayer "-1 -1\n") (demoPlayer "") 1 1 demoCourse ⟨7, 7⟩ demoExchange
      (-1) (-1) (some (txt "\n")) [] rfl (by decide)).1 (by decide),
   (plan_parsed_pair (demoPlayer "0 0\n") (demoPlayer "") 1 1 demoCourse ⟨7, 7⟩ demoExchange
      0 0 (some (txt "\n")) [] rfl (by decide)).1 (by decide),
   (plan_parsed_pair (demoPlayer "1 1\n") (demoPlayer "") 1 1 demoCourse ⟨7, 7⟩ demoExchange
      1 1 (some (txt "\n")) [] rfl (by decide)).1 (by decide),
   ((plan_parsed_pair (demoPlayer "2 0\n") (demoPlayer "") 1 1 demoCourse ⟨7, 7⟩ demoExchange
      2 0 (some (txt "\n")) [] rfl (by decide)).2 (by decide)).1,
   ((plan_parsed_pair (demoPlayer "-2 1\n") (demoPlayer "") 1 1 demoCourse ⟨7, 7⟩ demoExchange
      (-2) 1 (some (txt "\n")) [] rfl (by decide)).2 (by decide)).1,
   ((plan_parsed_pair (demoPlayer "0 5\n") (demoPlayer "") 1 1 demoCourse ⟨7, 7⟩ demoExchange
      0 5 (some (txt "\n")) [] rfl (by decide)).2 (by decide)).1⟩

/-- Witness of C2: the acknowledgment `0` gives RACING, the acknowledgment `1` and an empty
stream give ALREADY_DISQUALIFIED. -/
theorem handshake_phase_witness :
    (demoNew "0\n" demoExchange).state.state = PlayerStateCategory.RACING
      ∧ (demoNew "1\n" demoExchange).state.state = PlayerStateCategory.ALREADY_DISQUALIFIED
      ∧ (demoNew "" demoExchange).state.state = PlayerStateCategory.ALREADY_DISQUALIFIED :=
  ⟨(handshake_phase (txt "ai") (txt "A") demoCourse 5 ⟨none, none, none, none⟩ (txt "0\n")
      demoExchange (by decide) rfl).1 (by decide),
   (handshake_phase (txt "ai") (txt "A") demoCourse 5 ⟨none, none, none, none⟩ (txt "1\n")
      demoExchange (by decide) rfl).2.1 1 (by decide) (by decide),
   (handshake_phase (txt "ai") (txt "A") demoCourse 5 ⟨none, none, none, none⟩ (txt "")
      demoExchange (by decide) rfl).2.2.2 (by decide)⟩

/-- Witness of C3: the token `-12` behind a space and before a newline reads as `-12`. -/
theorem readInt_integer_token_witness :
    readInt demoWhat (some (txt " -12\n")) = (some (txt "\n"), (some (-12), [])) :=
  (readInt_integer_token demoWhat (txt " ") (txt "-12") (txt "\n")
    (by decide) (by decide) (by decide) (by decide)).1

/-- Counterexample to C4 as worded: the non-numeric token `abc` yields two diagnostic strings,
not one, and `readAct` on the two malformed tokens `abc` and `99999999999` yields four, not
two. -/
theorem readInt_malformed_two_lines :
    isNonNumeric (txt "abc") = true
      ∧ overflowsInt (txt "99999999999") = true
      ∧ (readInt demoWhat (some (txt "abc"))).2
        = (none, [txt "input invalid argument from AI: \"abc\"", txt "what : stoi"])
      ∧ (readInt demoWhat (some (txt "abc"))).2.2.length ≠ 1
      ∧ (readAct demoWhat (some (txt "abc 99999999999"))).2.1 = none
      ∧ (readAct demoWhat (some (txt "abc 99999999999"))).2.2.length ≠ 2 := by
  decide

/-- Witness of C4 as the code has it, on the stream `abc 99999999999`. -/
theorem readInt_malformed_token_witness :
    (readInt demoWhat (some (txt "abc 99999999999"))).2.2.length = 2
      ∧ (readAct demoWhat (some (txt "abc 99999999999"))).2.1 = none
      ∧ (readAct demoWhat (some (txt "abc 99999999999"))).2.2.length = 4 :=
  ⟨by rw [(readInt_malformed_token demoWhat (txt "abc 99999999999")).1 (by decide)]; rfl,
   (readInt_malformed_token demoWhat (txt "abc 99999999999")).2.2
     (Or.inl (by decide)) (Or.inr (by decide))⟩

/-- Witness of C5: the reply `x 1` gives INVALID from a running child and DIED from a dead
one, the output acceleration `(7, 7)` staying as it was. -/
theorem plan_parse_failure_witness :
    (demoPlan "x 1\n" demoExchange).category = ResultCategory.INVALID
      ∧ (demoPlan "x 1\n" demoExchange).accel = ⟨7, 7⟩
      ∧ (demoPlan "x 1\n" { demoExchange with running := false }).category
        = ResultCategory.DIED :=
  ⟨(plan_parse_failure (demoPlayer "x 1\n") (demoPlayer "") 1 1 demoCourse ⟨7, 7⟩ demoExchange
      rfl (Or.inl (by decide))).1,
   (plan_parse_failure (demoPlayer "x 1\n") (demoPlayer "") 1 1 demoCourse ⟨7, 7⟩ demoExchange
      rfl (Or.inl (by decide))).2.2,
   (plan_parse_failure (demoPlayer "x 1\n") (demoPlayer "") 1 1 demoCourse ⟨7, 7⟩
      { demoExchange with running := false } rfl (Or.inl (by decide))).1⟩

/-- Witness of C6: on a timeout the replies `1 1` and `x` lead to the same result TIMEDOUT, and
the acknowledgments `0` and `1` to the same disqualified player. -/
theorem timeout_outcome_witness :
    (demoPlan "1 1\n" demoTimeout).category = ResultCategory.TIMEDOUT
      ∧ (demoPlan "1 1\n" demoTimeout).accel = ⟨7, 7⟩
      ∧ demoPlan "1 1\n" demoTimeout = demoPlan "x\n" demoTimeout
      ∧ (demoNew "0\n" demoTimeout).state.state = PlayerStateCategory.ALREADY_DISQUALIFIED
      ∧ demoNew "0\n" demoTimeout = demoNew "1\n" demoTimeout :=
  timeout_outcome (demoPlayer "") (demoPlayer "") 1 1 demoCourse ⟨7, 7⟩ demoTimeout
    (txt "ai") (txt "A") demoCourse 5 ⟨none, none, none, none⟩ rfl
    (some (txt "1 1\n")) (some (txt "x\n")) (txt "0\n") (txt "1\n")

/-- Witness of C7: with 1000 ms left and 3 ms measured, 997 ms are left after the turn and
after the handshake. -/
theorem budget_after_exchange_witness :
    (demoPlan "1 1\n" demoExchange).player.state.timeLeft = 997
      ∧ (demoPlan "1 1\n" demoExchange).timeUsed = 3
      ∧ (demoNew "0\n" demoExchange).state.timeLeft = 997 :=
  have h := budget_after_exchange (demoPlayer "1 1\n") (demoPlayer "") 1 1 demoCourse ⟨7, 7⟩
    demoExchange (txt "ai") (txt "A") demoCourse 5 ⟨none, none, none, none⟩ (txt "0\n")
    demoExchange (by decide) (by decide) (by decide)
  ⟨h.1, h.2.1, h.2.2.1⟩

/-- Witness of C9: with the cap 3 the input `abcdef` leaves `abc` and the notice in the sink;
the input `ab` leaves `ab` only. -/
theorem logging_capped_witness :
    logging (txt "abcdef") (some []) 3
        = some (txt "abc\n[system] stderr output have reached the limit(MAX_SIZE=3 bytes)\n")
      ∧ logging (txt "ab") (some []) 3 = some (txt "ab") :=
  ⟨(logging_capped (txt "abcdef") [] 3 (by decide)).1.trans (by decide),
   (logging_capped (txt "ab") [] 3 (by decide)).1.trans (by decide)⟩

/-- Counterexample to C10 as worded: the malformed token of 100 letters `a` is not longer than
100 characters, yet its diagnostic is not the token quoted as it is: the token is followed by
the ellipsis `...` and the tag `(clipped)`. -/
theorem readInt_hundred_letters_clipped :
    (List.replicate 100 'a').length ≤ 100
      ∧ (readInt demoWhat (some (List.replicate 100 'a'))).2.2.head?
        = some (txt "input invalid argument from AI: \"" ++ (List.replicate 100 'a' ++ txt "...")
            ++ txt "\"" ++ txt "(clipped)")
      ∧ (readInt demoWhat (some (List.replicate 100 'a'))).2.2.head?
        ≠ some (txt "input invalid argument from AI: \"" ++ List.replicate 100 'a'
            ++ txt "\"") := by
  refine ⟨by simp, ?_, ?_⟩
  · rw [readInt_hundred_letters]
    rfl
  · rw [readInt_hundred_letters]
    intro hEq
    have hlen := congrArg (fun o => (o.map List.length)) hEq
    simp [txt] at hlen

/-- Witness of C10 as the code has it: the token `abc` is quoted as it is, and the token of 100
letters `a` is followed by the ellipsis and the tag. -/
theorem readInt_quote_clipping_witness :
    (readInt demoWhat (some (txt "abc"))).2.2.head?
        = some (txt "input invalid argument from AI: \"abc\"")
      ∧ (readInt demoWhat (some (List.replicate 100 'a'))).2.2.head?
        = some (malformedHeader (extract (List.replicate 100 'a')).1
            ++ ((extract (List.replicate 100 'a')).1.take 100 ++ txt "...")
            ++ txt "\"" ++ txt "(clipped)") :=
  ⟨((readInt_quote_clipping demoWhat (txt "abc") (Or.inl (by decide))).1 (by decide)).trans
      (by decide),
   (readInt_quote_clipping demoWhat (List.replicate 100 'a')
      (Or.inl isNonNumeric_hundred_letters)).2 (by rw [extract_hundred_letters]; simp)⟩

end Samurai
